/-
  Verification of the Jubilapp recommendation & semantic classification engine.

  Shallow embedding of the Python modules
    app/domain_activities.py, app/domain_ai.py, app/domain_preparation.py,
    app/domain_mobility.py, app/services/category_preferences.py,
    app/services/catalog_embeddings.py
  into Lean 4.  Python strings are modelled as `List Char` (with `String`
  wrappers at the boundaries); floats as `ℚ`; `None`-able values as `Option`;
  raising functions as `Except String`.  Library primitives
  (`unicodedata.normalize("NFKD", ·)`, `unicodedata.combining`, `str.lower`,
  `str.strip`, `str.split`, `math.log`, `hashlib.sha1`, the embedding
  provider) are modelled once, concretely for the character repertoire the
  repository uses, and shared by every embedded function exactly as the
  Python modules share the library.
-/
import Mathlib

namespace Jubilapp

/-! ## Models of the Python text primitives -/

/-- Model of NFKD decomposition of a single character
    (`unicodedata.normalize("NFKD", ·)` applied pointwise): the accented
    Latin letters the repository uses decompose into base letter plus a
    combining mark; every other character is its own decomposition. -/
def nfkdChar (c : Char) : List Char :=
  match c with
  | 'á' => ['a', Char.ofNat 769]
  | 'é' => ['e', Char.ofNat 769]
  | 'í' => ['i', Char.ofNat 769]
  | 'ó' => ['o', Char.ofNat 769]
  | 'ú' => ['u', Char.ofNat 769]
  | 'Á' => ['A', Char.ofNat 769]
  | 'É' => ['E', Char.ofNat 769]
  | 'Í' => ['I', Char.ofNat 769]
  | 'Ó' => ['O', Char.ofNat 769]
  | 'Ú' => ['U', Char.ofNat 769]
  | 'ñ' => ['n', Char.ofNat 771]
  | 'Ñ' => ['N', Char.ofNat 771]
  | 'ü' => ['u', Char.ofNat 776]
  | 'Ü' => ['U', Char.ofNat 776]
  | _   => [c]

/-- Model of `unicodedata.combining(ch) != 0`: the combining diacritical
    marks block U+0300–U+036F. -/
def isCombining (c : Char) : Bool :=
  decide (768 ≤ c.toNat ∧ c.toNat ≤ 879)

/-- Model of `str.lower` on a single character (Python lowercasing is
    character-pointwise on this repertoire). -/
def lowerChar (c : Char) : Char :=
  match c with
  | 'A' => 'a' | 'B' => 'b' | 'C' => 'c' | 'D' => 'd' | 'E' => 'e'
  | 'F' => 'f' | 'G' => 'g' | 'H' => 'h' | 'I' => 'i' | 'J' => 'j'
  | 'K' => 'k' | 'L' => 'l' | 'M' => 'm' | 'N' => 'n' | 'O' => 'o'
  | 'P' => 'p' | 'Q' => 'q' | 'R' => 'r' | 'S' => 's' | 'T' => 't'
  | 'U' => 'u' | 'V' => 'v' | 'W' => 'w' | 'X' => 'x' | 'Y' => 'y'
  | 'Z' => 'z'
  | 'Á' => 'á' | 'É' => 'é' | 'Í' => 'í' | 'Ó' => 'ó' | 'Ú' => 'ú'
  | 'Ñ' => 'ñ' | 'Ü' => 'ü'
  | _   => c

/-- Model of the whitespace characters stripped by `str.strip()` /
    split on by `str.split()`. -/
def isPySpace (c : Char) : Bool :=
  c.toNat = 32 || (9 ≤ c.toNat && c.toNat ≤ 13)

/-- `unicodedata.normalize("NFKD", s)`. -/
def pyNFKD (s : List Char) : List Char :=
  s.flatMap nfkdChar

/-- `"".join(ch for ch in s if not unicodedata.combining(ch))`. -/
def removeCombining (s : List Char) : List Char :=
  s.filter (fun c => !isCombining c)

/-- `s.lower()`. -/
def pyLower (s : List Char) : List Char :=
  s.map lowerChar

/-- `s.strip()`. -/
def pyStrip (s : List Char) : List Char :=
  ((s.dropWhile isPySpace).reverse.dropWhile isPySpace).reverse

/-- `s.strip()` on a `String`. -/
def pyStripStr (s : String) : String :=
  ⟨pyStrip s.toList⟩

/-- `s.lower()` on a `String`. -/
def pyLowerStr (s : String) : String :=
  ⟨pyLower s.toList⟩

/-! ## The two category-token normalizers

`app/domain_activities.py::_normalize_category_token` and
`app/services/category_preferences.py::_normalize_category_token`. -/

namespace DomainActivities

/-- `app/domain_activities.py::_normalize_category_token`:
    NFKD-decompose, drop combining marks, `strip().lower()`. -/
def _normalize_category_token (value : Option String) : Option String :=
  match value with
  | none => none
  | some v =>
    if v = "" then none
    else
      let decomposed := pyNFKD v.toList
      let cleaned := removeCombining decomposed
      let token := pyLower (pyStrip cleaned)
      if token = [] then none else some ⟨token⟩

end DomainActivities

namespace CategoryPreferences

/-- `app/services/category_preferences.py::_normalize_category_token`:
    NFKD-decompose, drop combining marks, `lower().strip()`. -/
def _normalize_category_token (value : Option String) : Option String :=
  match value with
  | none => none
  | some v =>
    if v = "" then none
    else
      let normalized := pyNFKD v.toList
      let cleaned := removeCombining normalized
      let token := pyStrip (pyLower cleaned)
      if token = [] then none else some ⟨token⟩

end CategoryPreferences

/-! ## Stable sorting (model of Python `list.sort`)

Python's `list.sort` is stable; the ranking engine sorts by score
descending (`reverse=True`) and the embedding loader sorts ascending by a
key.  A stable insertion sort parametrized by a "may come before"
comparator models both; the properties used by the claims (permutation,
length, order) are proved generically. -/

/-- Insert `x` before the first element `y` with `¬ keep x y`. -/
def insertStable {α : Type} (keep : α → α → Bool) (x : α) : List α → List α
  | [] => [x]
  | y :: ys => if keep x y then x :: y :: ys else y :: insertStable keep x ys

/-- Stable sort: `keep x y = true` means `x` may precede `y`. -/
def sortStable {α : Type} (keep : α → α → Bool) (l : List α) : List α :=
  l.foldr (insertStable keep) []

/-- Model of Python `dict.get(key)` over an association list in
    insertion order. -/
def dictGet {κ β : Type} [DecidableEq κ] : List (κ × β) → κ → Option β
  | [], _ => none
  | (k, v) :: rest, key => if key = k then some v else dictGet rest key

/-! ## `app/domain_activities.py`: catalog and ranking engine -/

namespace DomainActivities

/-- One catalog dict from `ATEMPORAL_ACTIVITIES` (optional keys
    `suggested_time` / `is_fallback` / `category` model the dict entries
    that only the fallback activity carries). -/
structure Activity where
  id : Int
  title : String
  emoji : String
  tags : List String
  indoor : Bool
  energy : String
  duration_min : Int
  cost : String
  time_of_day : String
  suggested_time : Option String := none
  is_fallback : Bool := false
  category : Option String := none
deriving Repr, DecidableEq

/-- `ATEMPORAL_ACTIVITIES` (the full static catalog). -/
def ATEMPORAL_ACTIVITIES : List Activity := [
  { id := 1, title := "Caminata ligera por tu sector", emoji := "🚶", tags := ["Caminatas / trekking"], indoor := false, energy := "media", duration_min := 30, cost := "gratis", time_of_day := "manana" },
  { id := 2, title := "Yoga suave en casa", emoji := "🧘", tags := ["Gimnasia suave / yoga / pilates"], indoor := true, energy := "baja", duration_min := 20, cost := "gratis", time_of_day := "manana" },
  { id := 3, title := "Sesión de estiramientos guiados", emoji := "🤸", tags := ["Gimnasia suave / yoga / pilates"], indoor := true, energy := "baja", duration_min := 15, cost := "gratis", time_of_day := "manana" },
  { id := 4, title := "Pintura creativa", emoji := "🎨", tags := ["Pintura / Dibujo"], indoor := true, energy := "baja", duration_min := 45, cost := "bajo", time_of_day := "tarde" },
  { id := 5, title := "Escribir un recuerdo de tu vida", emoji := "✍️", tags := ["Escritura / lectura creativa"], indoor := true, energy := "baja", duration_min := 20, cost := "gratis", time_of_day := "tarde" },
  { id := 6, title := "Escucha tu álbum favorito", emoji := "🎵", tags := ["Música (escuchar, cantar, tocar instrumento)"], indoor := true, energy := "baja", duration_min := 30, cost := "gratis", time_of_day := "tarde" },
  { id := 7, title := "Organiza y digitaliza fotos antiguas", emoji := "🗂️", tags := ["Fotografía", "Historia y cultura"], indoor := true, energy := "baja", duration_min := 40, cost := "gratis", time_of_day := "tarde" },
  { id := 8, title := "Practica vocabulario de un idioma", emoji := "🗣️", tags := ["Idiomas"], indoor := true, energy := "baja", duration_min := 15, cost := "gratis", time_of_day := "manana" },
  { id := 9, title := "Cocina una receta saludable", emoji := "🥗", tags := ["Cocina saludable"], indoor := true, energy := "media", duration_min := 45, cost := "medio", time_of_day := "tarde" },
  { id := 10, title := "Jardinería: plantar o regar", emoji := "🪴", tags := ["Jardinería"], indoor := false, energy := "baja", duration_min := 25, cost := "bajo", time_of_day := "manana" },
  { id := 11, title := "Club de lectura personal", emoji := "📚", tags := ["Club de lectura"], indoor := true, energy := "baja", duration_min := 30, cost := "gratis", time_of_day := "tarde" },
  { id := 12, title := "Juego de mesa o cartas", emoji := "🃏", tags := ["Juegos de mesa / cartas"], indoor := true, energy := "baja", duration_min := 30, cost := "bajo", time_of_day := "noche" },
  { id := 13, title := "Videollamada con familia o amigos", emoji := "📱", tags := ["Videollamadas con familia / amigos"], indoor := true, energy := "baja", duration_min := 20, cost := "gratis", time_of_day := "tarde" },
  { id := 14, title := "Meditación guiada 10 minutos", emoji := "🧘‍♂️", tags := ["Meditación / mindfulness"], indoor := true, energy := "baja", duration_min := 10, cost := "gratis", time_of_day := "manana" },
  { id := 15, title := "Curso corto online (20–30m)", emoji := "💻", tags := ["Cursos online / talleres", "Tecnología (apps, redes sociales)", "Fotografía y edición digital"], indoor := true, energy := "media", duration_min := 30, cost := "gratis", time_of_day := "tarde" },
  { id := 16, title := "Visita un museo virtual", emoji := "🖼️", tags := ["Museos, teatro, cine", "Historia y cultura"], indoor := true, energy := "baja", duration_min := 30, cost := "gratis", time_of_day := "tarde" },
  { id := 17, title := "Baile suave con tu música", emoji := "💃", tags := ["Baile", "Música (escuchar, cantar, tocar instrumento)"], indoor := true, energy := "media", duration_min := 20, cost := "gratis", time_of_day := "tarde" },
  { id := 18, title := "Paseo en bicicleta corta", emoji := "🚲", tags := ["Ciclismo"], indoor := false, energy := "alta", duration_min := 30, cost := "gratis", time_of_day := "manana" },
  { id := 19, title := "Voluntariado digital (microtareas)", emoji := "🤝", tags := ["Voluntariado", "Tecnología (apps, redes sociales)"], indoor := true, energy := "baja", duration_min := 30, cost := "gratis", time_of_day := "tarde" },
  { id := 20, title := "Aprende una app de salud", emoji := "📲", tags := ["Apps de finanzas, salud, transporte", "Tecnología (apps, redes sociales)"], indoor := true, energy := "baja", duration_min := 25, cost := "gratis", time_of_day := "tarde" },
  { id := 21, title := "Comparte una foto en redes", emoji := "📷", tags := ["Redes sociales", "Fotografía y edición digital"], indoor := true, energy := "baja", duration_min := 15, cost := "gratis", time_of_day := "tarde" },
  { id := 22, title := "Juego digital de lógica", emoji := "🧩", tags := ["Juegos digitales (apps, consolas, PC)"], indoor := true, energy := "media", duration_min := 20, cost := "gratis", time_of_day := "noche" },
  { id := 23, title := "Leer un cuento con tus nietos", emoji := "👨‍👩‍👧‍👦", tags := ["Actividades con nietos / familia"], indoor := true, energy := "baja", duration_min := 20, cost := "gratis", time_of_day := "tarde" },
  { id := 24, title := "Autocuidado: rutina facial simple", emoji := "🧴", tags := ["Autocuidado (skincare, spa casero, etc.)"], indoor := true, energy := "baja", duration_min := 15, cost := "bajo", time_of_day := "noche" },
  { id := 25, title := "Agenda tu control de salud", emoji := "🗓️", tags := ["Control de salud / chequeos"], indoor := true, energy := "baja", duration_min := 10, cost := "gratis", time_of_day := "manana" },
  { id := 26, title := "Plan de paseo local", emoji := "🗺️", tags := ["Viajes y turismo local"], indoor := false, energy := "media", duration_min := 30, cost := "gratis", time_of_day := "tarde" },
  { id := 27, title := "Sesión corta de natación", emoji := "🏊", tags := ["Natación"], indoor := false, energy := "alta", duration_min := 30, cost := "medio", time_of_day := "tarde" },
  { id := 28, title := "Pesca en lago o río", emoji := "🎣", tags := ["Pesca"], indoor := false, energy := "baja", duration_min := 90, cost := "medio", time_of_day := "manana" },
  { id := 29, title := "Armar un rompecabezas", emoji := "🧩", tags := ["Juegos de mesa / lógica"], indoor := true, energy := "baja", duration_min := 40, cost := "bajo", time_of_day := "tarde" },
  { id := 30, title := "Escuchar un pódcast educativo", emoji := "🎧", tags := ["Escucha / aprendizaje", "Tecnología (apps, redes sociales)"], indoor := true, energy := "baja", duration_min := 25, cost := "gratis", time_of_day := "manana" },
  { id := 31, title := "Escribir una carta a alguien especial", emoji := "💌", tags := ["Escritura / lectura creativa"], indoor := true, energy := "baja", duration_min := 20, cost := "gratis", time_of_day := "tarde" },
  { id := 32, title := "Dar de comer a aves en la plaza", emoji := "🐦", tags := ["Naturaleza", "Actividades al aire libre"], indoor := false, energy := "baja", duration_min := 15, cost := "bajo", time_of_day := "manana" },
  { id := 33, title := "Aprender un truco de cocina nuevo", emoji := "🍳", tags := ["Cocina creativa"], indoor := true, energy := "media", duration_min := 30, cost := "medio", time_of_day := "tarde" },
  { id := 34, title := "Hacer manualidades simples", emoji := "✂️", tags := ["Manualidades / DIY"], indoor := true, energy := "media", duration_min := 40, cost := "bajo", time_of_day := "tarde" },
  { id := 35, title := "Escribir tu lista de agradecimientos", emoji := "🙏", tags := ["Reflexión personal / mindfulness"], indoor := true, energy := "baja", duration_min := 15, cost := "gratis", time_of_day := "noche" },
  { id := 36, title := "Aprender pasos básicos de baile folklórico", emoji := "🪗", tags := ["Baile", "Cultura local"], indoor := true, energy := "media", duration_min := 25, cost := "gratis", time_of_day := "tarde" },
  { id := 37, title := "Hacer una caminata fotográfica", emoji := "📸", tags := ["Fotografía", "Caminatas / trekking"], indoor := false, energy := "media", duration_min := 45, cost := "gratis", time_of_day := "manana" },
  { id := 38, title := "Resolver un crucigrama o sudoku", emoji := "📝", tags := ["Juegos de lógica / palabras"], indoor := true, energy := "baja", duration_min := 20, cost := "gratis", time_of_day := "manana" },
  { id := 39, title := "Visitar una feria artesanal", emoji := "🛍️", tags := ["Cultura local", "Manualidades / artesanía"], indoor := false, energy := "media", duration_min := 60, cost := "medio", time_of_day := "tarde" },
  { id := 40, title := "Preparar jugos o batidos naturales", emoji := "🥤", tags := ["Cocina saludable"], indoor := true, energy := "media", duration_min := 20, cost := "bajo", time_of_day := "manana" }
]

/-- `CATEGORY_BY_ID`. -/
def CATEGORY_BY_ID : List (Int × String) := [
  (1, "Física"), (2, "Física"), (3, "Física"), (4, "Cognitiva"), (5, "Cognitiva"),
  (6, "Cognitiva"), (7, "Cognitiva"), (8, "Cognitiva"), (9, "Física"), (10, "Física"),
  (11, "Cognitiva"), (12, "Social"), (13, "Social"), (14, "Cognitiva"), (15, "Cognitiva"),
  (16, "Cognitiva"), (17, "Física"), (18, "Física"), (19, "Social"), (20, "Cognitiva"),
  (21, "Social"), (22, "Cognitiva"), (23, "Social"), (24, "Física"), (25, "Física"),
  (26, "Social"), (27, "Física"), (28, "Física"), (29, "Cognitiva"), (30, "Cognitiva"),
  (31, "Social"), (32, "Física"), (33, "Cognitiva"), (34, "Cognitiva"), (35, "Cognitiva"),
  (36, "Física"), (37, "Física"), (38, "Cognitiva"), (39, "Social"), (40, "Física")
]

/-- `get_category_for_activity`: explicit `category` if nonempty after
    stripping, else the id table, else the first tag that is nonempty after
    stripping, else `None`. -/
def get_category_for_activity (a : Activity) : Option String :=
  match a.category with
  | some c =>
    if pyStripStr c ≠ "" then some (pyStripStr c)
    else getFromId a
  | none => getFromId a
where
  /-- the id-table / first-tag fallback chain -/
  getFromId (a : Activity) : Option String :=
    match dictGet CATEGORY_BY_ID a.id with
    | some mapped => some mapped
    | none =>
      match a.tags.filterMap (fun t => if pyStripStr t ≠ "" then some (pyStripStr t) else none) with
      | [] => none
      | c :: _ => some c

/-- `FALLBACK_ACTIVITY`. -/
def FALLBACK_ACTIVITY : Activity :=
  { id := -1, title := "Amplía tus intereses para ver más actividades personalizadas",
    emoji := "🧭", tags := [], indoor := true, energy := "baja", duration_min := 15,
    cost := "gratis", time_of_day := "cualquiera", suggested_time := some "16:00",
    is_fallback := true, category := none }

/-- `_energy_weight`. -/
def _energy_weight (level : Option String) (energy : String) : Int :=
  if level = some "desorientado" then
    if energy = "baja" then 4 else if energy = "media" then 1 else if energy = "alta" then -3 else 0
  else if level = some "intermedio" then
    if energy = "baja" then 2 else if energy = "media" then 3 else if energy = "alta" then 0 else 0
  else if level = some "planificado" then
    if energy = "baja" then 0 else if energy = "media" then 2 else if energy = "alta" then 3 else 0
  else 0

/-- `_duration_weight`. -/
def _duration_weight (level : Option String) (minutes : Int) : Int :=
  if level = some "desorientado" then
    if minutes ≤ 30 then 1 else if minutes > 45 then -1 else 0
  else if level = some "intermedio" then
    if 20 ≤ minutes ∧ minutes ≤ 60 then 1 else 0
  else if level = some "planificado" then
    if 30 ≤ minutes ∧ minutes ≤ 90 then 1 else 0
  else 0

/-- `_time_weight`. -/
def _time_weight (pref : Option String) (tod : String) : Int :=
  match pref with
  | none => 0
  | some p =>
    if p = "" ∨ p = "cualquiera" then 0
    else if p = tod then 1 else 0

/-- `names = {n.strip() for n in user_interests if n and n.strip()}`. -/
def interestNames (user_interests : List String) : List String :=
  ((user_interests.map pyStripStr).filter (fun n => n ≠ "")).dedup

/-- `len(names.intersection(set(a.tags)))`. -/
def tagOverlap (names : List String) (a : Activity) : Nat :=
  (a.tags.dedup.filter (fun t => names.contains t)).length

/-- The category-filter token set computed from the `categories` argument
    (`if categories: allowed = {...}; allowed_categories = allowed or None`). -/
def allowedCategories (categories : Option (List String)) : Option (List String) :=
  match categories with
  | none => none
  | some cs =>
    if cs = [] then none
    else
      let allowed := ((cs.filterMap (fun c => _normalize_category_token (some c)))).dedup
      if allowed = [] then none else some allowed

/-- Does activity `a` pass the category filter and the tag-overlap test
    (the two `continue`s of the scoring loop)? -/
def survives (names : List String) (allowed : Option (List String)) (a : Activity) : Bool :=
  (match allowed with
   | none => true
   | some toks =>
     match _normalize_category_token (get_category_for_activity a) with
     | none => false
     | some tok => toks.contains tok) &&
  tagOverlap names a ≠ 0

/-- The deterministic part of the score of a surviving activity
    (everything except the per-call random jitter). -/
def baseScore (names : List String) (preparation_level : Option String)
    (time_of_day : Option String) (a : Activity) : Int :=
  (tagOverlap names a : Int) * 10
    + _energy_weight preparation_level a.energy
    + _duration_weight preparation_level a.duration_min
    + (if a.cost = "gratis" then 1 else 0)
    + _time_weight time_of_day a.time_of_day
    + (if preparation_level = some "desorientado" ∧ a.indoor then 1 else 0)

/-- The scored survivor list: the loop body of `recommend_atemporales`,
    with `random.uniform(-0.5, 0.5)` modelled by the draw sequence
    `jitter` consumed in loop order (one draw per surviving activity). -/
def scoredEntries (jitter : Nat → ℚ) (names : List String)
    (preparation_level : Option String) (allowed : Option (List String))
    (time_of_day : Option String) : List (ℚ × Activity) :=
  ((ATEMPORAL_ACTIVITIES.filter (survives names allowed)).enum).map
    (fun p => ((baseScore names preparation_level time_of_day p.2 : ℚ) + jitter p.1, p.2))

/-- `suggest_time` (inner helper of `recommend_atemporales`). -/
def suggest_time (tod : String) : String :=
  if tod = "manana" then "10:00"
  else if tod = "tarde" then "16:00"
  else if tod = "noche" then "19:00"
  else "16:00"

/-- `prepare` (inner helper of `recommend_atemporales`): attach
    `suggested_time` when absent/empty, derive `category`, default
    `is_fallback`. -/
def prepare (a : Activity) : Activity :=
  let a :=
    if a.suggested_time = none ∨ a.suggested_time = some "" then
      { a with suggested_time := some (suggest_time a.time_of_day) }
    else a
  { a with category := get_category_for_activity a }

/-- The survivors of the category filter and the tag-overlap test. -/
def survivorsList (user_interests : List String)
    (categories : Option (List String)) : List Activity :=
  ATEMPORAL_ACTIVITIES.filter
    (survives (interestNames user_interests) (allowedCategories categories))

/-- The deterministic score of a surviving entry as the specification
    words it: 10 times the interest/tag intersection size, plus the
    energy-weight table, plus the duration weight, plus 1 for a free
    entry, plus 1 when a given non-"cualquiera" timeOfDay equals the
    entry's, plus 1 for indoor entries when the level is desorientado
    (an empty timeOfDay counts as not given, as in the code's falsiness
    test).  The jitter term is accounted for separately. -/
def specScore (preparation_level : Option String) (time_of_day : Option String)
    (names : List String) (a : Activity) : Int :=
  10 * (tagOverlap names a : Int)
  + (match preparation_level with
     | some l =>
       if l = "desorientado" then
         (if a.energy = "baja" then 4 else if a.energy = "media" then 1
          else if a.energy = "alta" then -3 else 0)
       else if l = "intermedio" then
         (if a.energy = "baja" then 2 else if a.energy = "media" then 3
          else if a.energy = "alta" then 0 else 0)
       else if l = "planificado" then
         (if a.energy = "baja" then 0 else if a.energy = "media" then 2
          else if a.energy = "alta" then 3 else 0)
       else 0
     | none => 0)
  + (match preparation_level with
     | some l =>
       if l = "desorientado" then
         (if a.duration_min ≤ 30 then 1 else if a.duration_min > 45 then -1 else 0)
       else if l = "intermedio" then
         (if 20 ≤ a.duration_min ∧ a.duration_min ≤ 60 then 1 else 0)
       else if l = "planificado" then
         (if 30 ≤ a.duration_min ∧ a.duration_min ≤ 90 then 1 else 0)
       else 0
     | none => 0)
  + (if a.cost = "gratis" then 1 else 0)
  + (match time_of_day with
     | some t =>
       if t = "" then 0 else if t = "cualquiera" then 0
       else if t = a.time_of_day then 1 else 0
     | none => 0)
  + (if preparation_level = some "desorientado" ∧ a.indoor then 1 else 0)

/-- `recommend_atemporales`. -/
def recommend_atemporales (jitter : Nat → ℚ) (user_interests : List String)
    (preparation_level : Option String := none) (limit : Int := 10)
    (categories : Option (List String) := none)
    (time_of_day : Option String := none) : List Activity :=
  let names := interestNames user_interests
  let allowed := allowedCategories categories
  let scored := scoredEntries jitter names preparation_level allowed time_of_day
  if scored = [] then [prepare FALLBACK_ACTIVITY]
  else
    let sorted := sortStable (fun p q : ℚ × Activity => decide (p.1 ≥ q.1)) scored
    let lim := max 1 limit
    (sorted.take lim.toNat).map (fun p => prepare p.2)

end DomainActivities

/-! ## `app/domain_preparation.py` and `app/domain_mobility.py`: validators -/

namespace DomainPreparation

/-- `ALLOWED_LEVELS` (a Python set; modelled as a list, membership only). -/
def ALLOWED_LEVELS : List String := ["planificado", "intermedio", "desorientado"]

/-- `validate_level`: `None` passes through; a value not in
    `ALLOWED_LEVELS` raises `ValueError("Nivel inválido")`. -/
def validate_level (level : Option String) : Except String (Option String) :=
  match level with
  | none => Except.ok none
  | some l =>
    if ALLOWED_LEVELS.contains l then Except.ok (some l)
    else Except.error "Nivel inválido"

end DomainPreparation

namespace DomainMobility

/-- `ALLOWED_MOBILITY_LEVELS` (a Python set; modelled as a list). -/
def ALLOWED_MOBILITY_LEVELS : List String := ["baja", "media", "alta"]

/-- `validate_mobility_level`: `None` passes through; otherwise the value
    is `strip().lower()`-cleaned; an empty cleaned value yields `None`; a
    cleaned value not in the allowed set raises
    `ValueError("Nivel de movilidad inválido")`; otherwise the cleaned
    value is returned. -/
def validate_mobility_level (level : Option String) : Except String (Option String) :=
  match level with
  | none => Except.ok none
  | some l =>
    let cleaned := pyLowerStr (pyStripStr l)
    if cleaned = "" then Except.ok none
    else if ALLOWED_MOBILITY_LEVELS.contains cleaned then Except.ok (some cleaned)
    else Except.error "Nivel de movilidad inválido"

end DomainMobility

/-! ## List-of-characters string helpers (models of `in` and `str.split()`) -/

/-- Does `hay` start with `needle`? -/
def startsWithL : List Char → List Char → Bool
  | _, [] => true
  | [], _ :: _ => false
  | h :: hs, n :: ns => h = n && startsWithL hs ns

/-- Model of Python `needle in hay` substring containment. -/
def containsSub : List Char → List Char → Bool
  | [], needle => needle.isEmpty
  | h :: t, needle => startsWithL (h :: t) needle || containsSub t needle

/-- `needle in hay` on `String`s. -/
def containsSubStr (hay needle : String) : Bool :=
  containsSub hay.toList needle.toList

/-- Model of Python `s.split()` (split on whitespace runs, no empties). -/
def splitWSAux : List Char → List Char → List (List Char)
  | [], acc => if acc.isEmpty then [] else [acc.reverse]
  | c :: rest, acc =>
    if isPySpace c then
      if acc.isEmpty then splitWSAux rest [] else acc.reverse :: splitWSAux rest []
    else splitWSAux rest (c :: acc)

/-- `s.split()` on a `String`. -/
def splitWS (s : String) : List String :=
  (splitWSAux s.toList []).map (fun l => ⟨l⟩)

/-! ## `app/domain_ai.py`: mobility classification (lexical) -/

namespace DomainAI

/-- `_normalize_text`: NFKD, drop combining marks, `lower().strip()`. -/
def _normalize_text (value : String) : String :=
  ⟨pyStrip (pyLower (removeCombining (pyNFKD value.toList)))⟩

/-- `MOBILITY_LEVELS = ALLOWED_MOBILITY_LEVELS` (a Python set; the model
    fixes the iteration order baja, media, alta — CPython set iteration
    order is unspecified, and the claims are settled up to that order). -/
def MOBILITY_LEVELS : List String := DomainMobility.ALLOWED_MOBILITY_LEVELS

/-- `MOBILITY_KEYWORDS` (dict literal; insertion order). -/
def MOBILITY_KEYWORDS : List (String × List String) := [
  ("baja", ["movilidad baja", "movilidad reducida", "movilidad limitada",
            "dificultad para moverme", "me cuesta caminar", "me canso rapido",
            "uso baston", "uso andador", "necesito ayuda", "dolor al caminar",
            "salgo poco", "poca movilidad"]),
  ("media", ["movilidad media", "movilidad moderada", "algo limitada",
             "me canso un poco", "distancias cortas", "regular"]),
  ("alta", ["movilidad alta", "movilidad buena", "sin problemas para moverme",
            "sin problema para moverme", "camino bien", "sin limitaciones",
            "soy activo", "soy activa", "hago ejercicio", "movilidad plena"])
]

/-- `MOBILITY_EXACT_MATCHES` (dict literal). -/
def MOBILITY_EXACT_MATCHES : List (String × String) := [
  ("baja", "baja"), ("limitada", "baja"), ("reducida", "baja"),
  ("media", "media"), ("moderada", "media"), ("normal", "media"),
  ("alta", "alta"), ("buena", "alta"), ("excelente", "alta")
]

/-- The per-level keyword score of the third classification stage:
    `+2` for each keyword phrase of the level contained in the text. -/
def mobilityScore (normalized : String) (level : String) : Int :=
  match dictGet MOBILITY_KEYWORDS level with
  | none => 0
  | some keywords => 2 * (keywords.countP (fun k => containsSubStr normalized k) : Int)

/-- `max(scores, key=lambda key: scores[key])`: the first key attaining
    the maximal value (Python `max` keeps the earliest maximal item). -/
def argmaxFirst : List (String × Int) → Option (String × Int)
  | [] => none
  | x :: xs => some (xs.foldl (fun a p => if p.2 > a.2 then p else a) x)

/-- `_classify_mobility`: exact token dictionary, then literal
    `"movilidad <level>"` phrase, then keyword scoring (tokens of the
    source's set comprehension are scanned in text order). -/
def _classify_mobility (answer : Option String) : Except String (Option String) :=
  let text := pyStripStr (answer.getD "")
  if text = "" then Except.ok none
  else
    let normalized := _normalize_text text
    if normalized = "" then Except.ok none
    else
      let tokens := ((splitWS normalized).map pyStripStr).filter (fun w => w ≠ "")
      match tokens.findSome? (fun t => dictGet MOBILITY_EXACT_MATCHES t) with
      | some mapped => DomainMobility.validate_mobility_level (some mapped)
      | none =>
        match MOBILITY_LEVELS.find? (fun level => containsSubStr normalized ("movilidad " ++ level)) with
        | some level => DomainMobility.validate_mobility_level (some level)
        | none =>
          let scores := MOBILITY_LEVELS.map (fun level => (level, mobilityScore normalized level))
          match argmaxFirst scores with
          | none => Except.ok none
          | some best =>
            if best.2 > 0 then DomainMobility.validate_mobility_level (some best.1)
            else Except.ok none

/-- The mobility classification as the specification describes it
    (with the tie rule amended to what the code does): exact dictionary
    token, else literal `"movilidad <level>"` phrase, else keyword totals
    with the earliest level in the order baja, media, alta winning a tie
    of positive totals, `none` when all totals are zero. -/
def claimMobility (answer : String) : Option String :=
  let normalized := _normalize_text (pyStripStr answer)
  if normalized = "" then none
  else
    match (splitWS normalized).filterMap (fun t => dictGet MOBILITY_EXACT_MATCHES t) with
    | mapped :: _ => some mapped
    | [] =>
      if containsSubStr normalized "movilidad baja" then some "baja"
      else if containsSubStr normalized "movilidad media" then some "media"
      else if containsSubStr normalized "movilidad alta" then some "alta"
      else
        let sb := mobilityScore normalized "baja"
        let sm := mobilityScore normalized "media"
        let sa := mobilityScore normalized "alta"
        let m := max sb (max sm sa)
        if m > 0 then
          if sb = m then some "baja" else if sm = m then some "media" else some "alta"
        else none

end DomainAI

/-! ## `app/services/catalog_embeddings.py`

The Firestore collection `interests_catalog` is modelled as a list of
documents; `hashlib.sha1(...).hexdigest()` and the embedding provider are
abstract function parameters shared by every operation, exactly as the
module shares them. -/

namespace CatalogEmbeddings

/-- One Firestore document of `interests_catalog`, restricted to the
    fields the module reads/writes for the active model
    (`embedding_<model>_vector` / `_signature` / `_text`). -/
structure InterestDoc where
  docId : String
  id : Option Int := none
  name : Option String := none
  category : Option String := none
  vector : Option (List ℚ) := none
  signature : Option String := none
  text : Option String := none
deriving Repr, DecidableEq

/-- `_passage_payload(name, category)`. -/
def _passage_payload (name : String) (category : Option String) : String :=
  match category with
  | some c =>
    if c = "" then "passage: " ++ pyStripStr name
    else "passage: " ++ (pyStripStr c ++ (" — " ++ pyStripStr name))
  | none => "passage: " ++ pyStripStr name

/-- `_signature(payload)`: sha1 hex digest of `f"{model_id}||{payload}"`,
    with sha1 an abstract parameter. -/
def _signature (sha1hex : String → String) (model_id : String) (payload : String) : String :=
  sha1hex (model_id ++ ("||" ++ payload))

/-- `(data.get("name") or "").strip()`. -/
def docName (doc : InterestDoc) : String :=
  pyStripStr (doc.name.getD "")

/-- `(data.get("category") or None)`. -/
def docCategory (doc : InterestDoc) : Option String :=
  match doc.category with
  | some c => if c = "" then none else some c
  | none => none

/-- The canonical passage of a document. -/
def docPayload (doc : InterestDoc) : String :=
  _passage_payload (docName doc) (docCategory doc)

/-- The fresh signature of a document. -/
def docSignature (sha1hex : String → String) (model_id : String) (doc : InterestDoc) : String :=
  _signature sha1hex model_id (docPayload doc)

/-- `has_vector`: the stored vector field is a non-empty list. -/
def hasVector (doc : InterestDoc) : Bool :=
  match doc.vector with
  | some (_ :: _) => true
  | _ => false

/-- Does the refresh loop select this row for recomputation?  (Rows whose
    stripped name is empty are `continue`d before any check.) -/
def rowPending (sha1hex : String → String) (model_id : String) (force : Bool)
    (doc : InterestDoc) : Bool :=
  docName doc ≠ "" &&
  (force || !hasVector doc ||
    !(doc.signature = some (docSignature sha1hex model_id doc)))

/-- `batch.set(ref, {...}, merge=True)` for one pending row. -/
def applySet (st : List InterestDoc) (target : String) (vec : List ℚ)
    (sig : String) (payload : String) : List InterestDoc :=
  st.map (fun d =>
    if d.docId = target then
      { d with vector := some vec, signature := some sig, text := some payload }
    else d)

/-- `str(snapshot.id).isdigit()`. -/
def isDigitsStr (s : String) : Bool :=
  !s.toList.isEmpty && s.toList.all (fun c => 48 ≤ c.toNat && c.toNat ≤ 57)

/-- `int(...)` on a digit string. -/
def digitsVal (s : String) : Nat :=
  s.toList.foldl (fun n c => 10 * n + (c.toNat - 48)) 0

/-- `BASE_CATALOG` of `app/services/interests_catalog.py`: the 35
    `(category, name)` seed interests. -/
def BASE_CATALOG : List (String × String) := [
  ("Creatividad y Arte", "Pintura / Dibujo"),
  ("Creatividad y Arte", "Manualidades (tejido, carpintería, cerámica)"),
  ("Creatividad y Arte", "Música (escuchar, cantar, tocar instrumento)"),
  ("Creatividad y Arte", "Fotografía"),
  ("Creatividad y Arte", "Escritura / lectura creativa"),
  ("Deporte y Bienestar", "Caminatas / trekking"),
  ("Deporte y Bienestar", "Gimnasia suave / yoga / pilates"),
  ("Deporte y Bienestar", "Natación"),
  ("Deporte y Bienestar", "Baile"),
  ("Deporte y Bienestar", "Ciclismo"),
  ("Deporte y Bienestar", "Pesca"),
  ("Deporte y Bienestar", "Jardinería"),
  ("Aprendizaje y Desarrollo Personal", "Idiomas"),
  ("Aprendizaje y Desarrollo Personal", "Historia y cultura"),
  ("Aprendizaje y Desarrollo Personal", "Tecnología (apps, redes sociales)"),
  ("Aprendizaje y Desarrollo Personal", "Cursos online / talleres"),
  ("Aprendizaje y Desarrollo Personal", "Club de lectura"),
  ("Social y Comunitario", "Voluntariado"),
  ("Social y Comunitario", "Clubes sociales / centros de adulto mayor"),
  ("Social y Comunitario", "Actividades religiosas o espirituales"),
  ("Social y Comunitario", "Juegos de mesa / cartas"),
  ("Social y Comunitario", "Actividades con nietos / familia"),
  ("Salud y Cuidado Personal", "Meditación / mindfulness"),
  ("Salud y Cuidado Personal", "Cocina saludable"),
  ("Salud y Cuidado Personal", "Autocuidado (skincare, spa casero, etc.)"),
  ("Salud y Cuidado Personal", "Control de salud / chequeos"),
  ("Ocio y Cultura", "Viajes y turismo local"),
  ("Ocio y Cultura", "Museos, teatro, cine"),
  ("Ocio y Cultura", "Gastronomía (recetas, restaurantes)"),
  ("Ocio y Cultura", "Eventos culturales y ferias"),
  ("Tecnología y Digital", "Redes sociales"),
  ("Tecnología y Digital", "Videollamadas con familia / amigos"),
  ("Tecnología y Digital", "Juegos digitales (apps, consolas, PC)"),
  ("Tecnología y Digital", "Fotografía y edición digital"),
  ("Tecnología y Digital", "Apps de finanzas, salud, transporte")]

/-- `batch.set(col.document(target), data)` without merge: a full
    replacement when a document with that id exists, a new document
    otherwise. -/
def setDoc (st : List InterestDoc) (target : String) (d : InterestDoc) :
    List InterestDoc :=
  if st.any (fun x => x.docId = target) then
    st.map (fun x => if x.docId = target then d else x)
  else st ++ [d]

/-- `ensure_catalog_firestore()` of `app/services/interests_catalog.py`:
    every `BASE_CATALOG` interest whose name is not already present is
    written as a fresh `{id, name, category}` document at
    `str(next_id)`, with `next_id` counting up from one past the largest
    existing numeric id (1 when there is none). -/
def ensure_catalog_firestore (store : List InterestDoc) : List InterestDoc :=
  let existing_names := store.filterMap (fun d =>
    match d.name with
    | some n => if n = "" then none else some n
    | none => none)
  let current_ids := store.filterMap (fun d =>
    match d.id with
    | some n => some n
    | none => if isDigitsStr d.docId then some ((digitsVal d.docId : Int)) else none)
  let next_id : Int :=
    match current_ids with
    | [] => 1
    | c :: cs => cs.foldl max c + 1
  (BASE_CATALOG.foldl
    (fun st cn =>
      if cn.2 ∈ existing_names then st
      else
        (setDoc st.1 (toString st.2)
          { docId := toString st.2, id := some st.2, name := some cn.2,
            category := some cn.1 },
         st.2 + 1))
    (store, next_id)).1

/-- The refresh phase of `ensure_catalog_embeddings` (everything after
    the `ensure_catalog_firestore()` call), over the streamed catalog.
    The provider is called once on all pending payloads; a vector-count
    mismatch raises before any store write.  (The source commits the
    writes in chunks of 300; chunking only groups commits, the sequence
    of `set` operations — and hence the final store — is the same.) -/
def refreshEmbeddings (sha1hex : String → String) (model_id : String)
    (embed : List String → List (List ℚ)) (force : Bool)
    (store : List InterestDoc) : Except String (List InterestDoc) :=
  if store = [] then Except.ok store
  else
    let pending := store.filter (rowPending sha1hex model_id force)
    if pending = [] then Except.ok store
    else
      let payloads := pending.map docPayload
      let vectors := embed payloads
      if vectors.length ≠ pending.length then
        Except.error "No se pudieron generar embeddings para el catálogo de intereses"
      else
        Except.ok ((pending.zip vectors).foldl
          (fun st pv =>
            applySet st pv.1.docId pv.2 (docSignature sha1hex model_id pv.1) (docPayload pv.1))
          store)

/-- `ensure_catalog_embeddings(force)`: first seed missing base interests
    (`ensure_catalog_firestore()`), then refresh the streamed catalog. -/
def ensure_catalog_embeddings (sha1hex : String → String) (model_id : String)
    (embed : List String → List (List ℚ)) (force : Bool)
    (store : List InterestDoc) : Except String (List InterestDoc) :=
  refreshEmbeddings sha1hex model_id embed force (ensure_catalog_firestore store)

/-- One row of the loaded catalog (`{"id", "name", "category"}`). -/
structure InterestRow where
  id : Int
  name : String
  category : Option String
deriving Repr, DecidableEq

/-- `int(data.get("id") or (snapshot.id if str(snapshot.id).isdigit() else 0))`. -/
def docRowId (doc : InterestDoc) : Int :=
  match doc.id with
  | some n =>
    if n ≠ 0 then n
    else if isDigitsStr doc.docId then (digitsVal doc.docId : Int) else 0
  | none => if isDigitsStr doc.docId then (digitsVal doc.docId : Int) else 0

/-- The row-extraction loop of `load_interest_embeddings`: skip rows with
    an empty stripped name or without a usable (non-empty) vector. -/
def extractEmbeddings (store : List InterestDoc) : List (InterestRow × List ℚ) :=
  store.filterMap (fun doc =>
    if docName doc = "" then none
    else
      match doc.vector with
      | some (v :: vs) =>
        some ({ id := docRowId doc, name := docName doc, category := doc.category }, v :: vs)
      | _ => none)

/-- Python's `<` on strings: lexicographic comparison of code points. -/
def charListLt : List Char → List Char → Bool
  | [], [] => false
  | [], _ :: _ => true
  | _ :: _, [] => false
  | a :: as, b :: bs =>
    if a.toNat < b.toNat then true
    else if b.toNat < a.toNat then false
    else charListLt as bs

/-- `a < b` on strings. -/
def strLtB (a b : String) : Bool := charListLt a.toList b.toList

/-- `a <= b` on strings. -/
def strLeB (a b : String) : Bool := strLtB a b || decide (a = b)

/-- The ascending sort key comparison of `load_interest_embeddings`
    (`key=lambda item: (category or "", name)`, stable). -/
def rowKeyLE (x y : CatalogEmbeddings.InterestRow × List ℚ) : Bool :=
  strLtB (x.1.category.getD "") (y.1.category.getD "") ||
    (x.1.category.getD "" = y.1.category.getD "" && strLeB x.1.name y.1.name)

/-- `load_interest_embeddings()`: refresh, extract, sort; raises
    `HuggingFaceRequestError` when no row has a usable vector. -/
def load_interest_embeddings (sha1hex : String → String) (model_id : String)
    (embed : List String → List (List ℚ))
    (store : List InterestDoc) : Except String (List (InterestRow × List ℚ)) :=
  match ensure_catalog_embeddings sha1hex model_id embed false store with
  | Except.error e => Except.error e
  | Except.ok store' =>
    let embeddings := sortStable rowKeyLE (extractEmbeddings store')
    if embeddings = [] then
      Except.error "No hay embeddings almacenados para el catálogo de intereses. Ejecuta ensure_catalog_embeddings()"
    else Except.ok embeddings

end CatalogEmbeddings

/-! ## `app/domain_ai.py`: embedding-based classification -/

namespace DomainAI

/-- `_dot(a, b)`. -/
def _dot (a b : List ℚ) : ℚ :=
  ((a.zip b).map (fun p => p.1 * p.2)).sum

/-- `MIN_INTEREST_SCORE = 0.33`. -/
def MIN_INTEREST_SCORE : ℚ := 33 / 100

/-- Ideal round-half-to-even (Python's `round` on exact values). -/
def roundHalfEven (x : ℚ) : Int :=
  if x - ⌊x⌋ < 1 / 2 then ⌊x⌋
  else if x - ⌊x⌋ > 1 / 2 then ⌊x⌋ + 1
  else if ⌊x⌋ % 2 = 0 then ⌊x⌋ else ⌊x⌋ + 1

/-- `round(x, 3)`. -/
def round3 (x : ℚ) : ℚ :=
  (roundHalfEven (x * 1000) : ℚ) / 1000

/-- One suggestion dict `{"id", "name", "category", "score"}`. -/
structure Suggestion where
  id : Int
  name : String
  category : Option String
  score : ℚ
deriving Repr, DecidableEq

/-- The suggestion built from a row and its raw best score. -/
def mkSuggestion (row : CatalogEmbeddings.InterestRow) (score : ℚ) : Suggestion :=
  { id := row.id, name := row.name, category := row.category, score := round3 score }

/-- `best = max(sims) if sims else -1.0`. -/
def bestSim (vec : List ℚ) (answer_vectors : List (List ℚ)) : ℚ :=
  match answer_vectors.map (fun ans => _dot vec ans) with
  | [] => -1
  | s :: ss => ss.foldl max s

/-- The `for score, row in scored[:max(1, top_k)]` loop of
    `_interest_suggestions`: append until a below-threshold candidate is
    met with at least one suggestion already accepted. -/
def suggestLoop : List (ℚ × CatalogEmbeddings.InterestRow) → List Suggestion → List Suggestion
  | [], acc => acc
  | (score, row) :: rest, acc =>
    if score < MIN_INTEREST_SCORE ∧ acc ≠ [] then acc
    else suggestLoop rest (acc ++ [mkSuggestion row score])

/-- The body of `_interest_suggestions` after the catalog vectors are
    loaded. -/
def _interest_suggestions_core (catalog_vectors : List (CatalogEmbeddings.InterestRow × List ℚ))
    (answer_vectors : List (List ℚ)) (top_k : Int) : List Suggestion :=
  let scored := catalog_vectors.map (fun rv => (bestSim rv.2 answer_vectors, rv.1))
  let sorted := sortStable
    (fun p q : ℚ × CatalogEmbeddings.InterestRow => decide (p.1 ≥ q.1)) scored
  let suggestions := suggestLoop (sorted.take (max 1 top_k).toNat) []
  if suggestions = [] then
    match sorted with
    | [] => suggestions
    | (best_score, best_row) :: _ => [mkSuggestion best_row best_score]
  else suggestions

/-- `_interest_suggestions(answers, top_k)`. -/
def _interest_suggestions (sha1hex : String → String) (model_id : String)
    (embed : List String → List (List ℚ))
    (store : List CatalogEmbeddings.InterestDoc)
    (answers : List String) (top_k : Int) : Except String (List Suggestion) :=
  let cleaned := (answers.map pyStripStr).filter (fun a => a ≠ "")
  if cleaned = [] then Except.ok []
  else
    let query_payloads := cleaned.map (fun text => "query: " ++ text)
    let answer_vectors := embed query_payloads
    if answer_vectors.length ≠ cleaned.length then
      Except.error "No se pudieron generar embeddings de las respuestas"
    else
      match CatalogEmbeddings.load_interest_embeddings sha1hex model_id embed store with
      | Except.error e => Except.error e
      | Except.ok catalog_vectors =>
        Except.ok (_interest_suggestions_core catalog_vectors answer_vectors top_k)

/-- `PREPARATION_REFERENCES` (dict literal; insertion order). -/
def PREPARATION_REFERENCES : List (String × List String) := [
  ("planificado",
    ["Tengo un plan organizado con actividades claras para mi jubilación.",
     "Sé exactamente qué quiero hacer y ya tengo un calendario definido."]),
  ("intermedio",
    ["Tengo ideas de lo que quiero hacer, pero aún no lo he estructurado.",
     "Sé algunas actividades que me gustan, pero necesito ordenarlas mejor."]),
  ("desorientado",
    ["No tengo claro qué hacer con mi tiempo libre y necesito orientación.",
     "Me siento perdido y no sé por dónde empezar a organizar actividades."])
]

/-- The flattened `(level, phrase)` rows of
    `_preparation_reference_vectors` (the source groups the embedded
    vectors into a per-level dict and iterates `.items()`; insertion order
    makes the flattened iteration identical). -/
def preparationRows : List (String × String) :=
  PREPARATION_REFERENCES.flatMap (fun lp => lp.2.map (fun phrase => (lp.1, phrase)))

/-- `_preparation_reference_vectors()`: embed every reference phrase,
    raising when the provider returns a wrong count. -/
def _preparation_reference_vectors (embed : List String → List (List ℚ)) :
    Except String (List (String × List ℚ)) :=
  let texts := preparationRows.map (fun r => "passage: " ++ r.2)
  let vectors := embed texts
  if vectors.length ≠ preparationRows.length then
    Except.error "No se pudieron generar embeddings de referencia"
  else Except.ok ((preparationRows.map Prod.fst).zip vectors)

/-- `_classify_preparation(answer)`. -/
def _classify_preparation (embed : List String → List (List ℚ))
    (answer : Option String) : Except String (Option String) :=
  let text := pyStripStr (answer.getD "")
  if text = "" then Except.ok none
  else
    match embed ["query: " ++ text] with
    | [] => Except.ok none
    | answer_vec :: _ =>
      match _preparation_reference_vectors embed with
      | Except.error e => Except.error e
      | Except.ok pairs =>
        let best := pairs.foldl
          (fun acc lv =>
            if _dot answer_vec lv.2 > acc.2 then (some lv.1, _dot answer_vec lv.2) else acc)
          ((none : Option String), (-1 : ℚ))
        match best.1 with
        | none => Except.ok none
        | some best_level =>
          if best.2 < 1 / 4 then Except.ok none
          else DomainPreparation.validate_level (some best_level)

end DomainAI

/-! ## Claim-side specifications for the semantic classifier -/

namespace DomainAI

/-- The interest-suggestion walk as the specification words it: walk the
    sorted rows, stopping as soon as `topK` results are collected or the
    next candidate scores below the threshold with at least one result
    already accepted. -/
def suggestSpecWalk (top_k : Nat) :
    List (ℚ × CatalogEmbeddings.InterestRow) → Nat → List Suggestion
  | [], _ => []
  | (s, r) :: rest, n =>
    if top_k ≤ n then []
    else if s < MIN_INTEREST_SCORE ∧ 0 < n then []
    else mkSuggestion r s :: suggestSpecWalk top_k rest (n + 1)

/-- The interest suggestions as the specification words them: the
    threshold walk over the rows sorted by best score descending, with
    the single highest-scoring row as fallback if the walk yields
    nothing. -/
def suggestSpec (catalog_vectors : List (CatalogEmbeddings.InterestRow × List ℚ))
    (answer_vectors : List (List ℚ)) (top_k : Int) : List Suggestion :=
  let sorted := sortStable
    (fun p q : ℚ × CatalogEmbeddings.InterestRow => decide (p.1 ≥ q.1))
    (catalog_vectors.map (fun rv => (bestSim rv.2 answer_vectors, rv.1)))
  match suggestSpecWalk top_k.toNat sorted 0, sorted with
  | [], [] => []
  | [], (best_score, best_row) :: _ => [mkSuggestion best_row best_score]
  | w, _ => w

/-- The tail shape of the suggestion walk once at least one suggestion
    has been accepted: keep appending while the remaining budget allows
    and the candidate meets the threshold. -/
def tailWalkBudget : Nat → List (ℚ × CatalogEmbeddings.InterestRow) → List Suggestion
  | 0, _ => []
  | _ + 1, [] => []
  | b + 1, (s, r) :: rest =>
    if s < MIN_INTEREST_SCORE then []
    else mkSuggestion r s :: tailWalkBudget b rest

/-- The best reference score as the specification words it: the maximum
    dot product over all reference-phrase vectors (with the `-1.0`
    sentinel of the code as the starting value). -/
def specBestScore (answer_vec : List ℚ) (pairs : List (String × List ℚ)) : ℚ :=
  (pairs.map (fun lv => _dot answer_vec lv.2)).foldl max (-1)

/-- The winning level as the specification words it: the level of the
    first phrase attaining the maximum score. -/
def specBestLevel (answer_vec : List ℚ) (pairs : List (String × List ℚ)) : Option String :=
  (pairs.find? (fun lv => _dot answer_vec lv.2 = specBestScore answer_vec pairs)).map Prod.fst

end DomainAI

/-! ## `app/services/category_preferences.py`

The four behavioral signal extractions read Firestore; the model takes
their outputs (per-token counters and label maps, in dict insertion
order) as inputs, and `math.log` as an abstract parameter `ln`. -/

namespace CategoryPreferences

/-- `CategoryPreferenceProfile`. -/
structure CategoryPreferenceProfile where
  weights : List (String × ℚ)
  labels : List (String × String)
  reported_atemporal_ids : List Int
deriving Repr, DecidableEq

/-- `weights[token] = weights.get(token, 0.0) + value` (dict update:
    existing keys keep their position, new keys are appended). -/
def assocAdd (w : List (String × ℚ)) (k : String) (v : ℚ) : List (String × ℚ) :=
  if (dictGet w k).isSome then
    w.map (fun p => if p.1 = k then (p.1, p.2 + v) else p)
  else w ++ [(k, v)]

/-- `_favorite_weight(count) = min(8.0, 3.0 + 2.5 * math.log(count + 1))`. -/
def _favorite_weight (ln : ℚ → ℚ) (count : ℚ) : ℚ :=
  min 8 (3 + 5 / 2 * ln (count + 1))

/-- `_history_weight(count) = min(5.0, 1.5 + 1.5 * math.log(count + 1))`. -/
def _history_weight (ln : ℚ → ℚ) (count : ℚ) : ℚ :=
  min 5 (3 / 2 + 3 / 2 * ln (count + 1))

/-- `_penalty_weight(count) = min(9.0, 3.0 + 3.0 * math.log(count + 1))`. -/
def _penalty_weight (ln : ℚ → ℚ) (count : ℚ) : ℚ :=
  min 9 (3 + 3 * ln (count + 1))

/-- `_rating_weight_adjustment`. -/
def _rating_weight_adjustment (rating : Int) : ℚ :=
  if rating ≥ 5 then 3
  else if rating = 4 then 3 / 2
  else if rating = 3 then 1 / 2
  else if rating = 2 then -(3 / 2)
  else -3

/-- `_apply_weights(weights, labels, counts, name_map, transform)`:
    entries with count ≤ 0 or a zero transformed value are skipped; a
    label is recorded only once per token and only when the name map
    knows the token. -/
def _apply_weights (transform : ℚ → ℚ)
    (st : List (String × ℚ) × List (String × String))
    (counts : List (String × ℚ)) (name_map : List (String × String)) :
    List (String × ℚ) × List (String × String) :=
  counts.foldl
    (fun st tc =>
      if tc.2 ≤ 0 then st
      else if transform tc.2 = 0 then st
      else
        (assocAdd st.1 tc.1 (transform tc.2),
         if dictGet st.2 tc.1 = none ∧ (dictGet name_map tc.1).isSome then
           st.2 ++ [(tc.1, (dictGet name_map tc.1).getD "")]
         else st.2))
    st

/-- The aggregation loop of `_history_feedback_weights`, over the
    resolved `(category token, rating)` of each history snapshot (the
    Firestore read and the `_resolve_category`/`_resolve_rating` helpers
    are collaborators; a record without a 1–5 rating or without a token
    is skipped, and every present rating's fixed delta is summed with no
    saturation). -/
def _history_feedback_weights (records : List (Option String × Option Int)) :
    List (String × ℚ) :=
  records.foldl
    (fun w rec =>
      match rec.2 with
      | none => w
      | some rating =>
        match rec.1 with
        | none => w
        | some token =>
          let adjustment := _rating_weight_adjustment rating
          if adjustment = 0 then w else assocAdd w token adjustment)
    []

/-- `get_user_category_preferences(uid)` given the four per-user signal
    extractions. -/
def get_user_category_preferences (ln : ℚ → ℚ)
    (favorite_counts : List (String × ℚ)) (favorite_labels : List (String × String))
    (history_counts : List (String × ℚ)) (history_labels : List (String × String))
    (rating_weights : List (String × ℚ)) (rating_labels : List (String × String))
    (penalty_counts : List (String × ℚ)) (penalty_labels : List (String × String))
    (reported_ids : List Int) : CategoryPreferenceProfile :=
  let st1 := _apply_weights (_favorite_weight ln) ([], []) favorite_counts favorite_labels
  let st2 := _apply_weights (_history_weight ln) st1 history_counts history_labels
  let st3 := _apply_weights (fun value => value) st2 rating_weights rating_labels
  let st4 := _apply_weights (fun count => -(_penalty_weight ln count)) st3
    penalty_counts penalty_labels
  { weights := (st4.1.filter (fun p => |p.2| ≥ 1 / 4)).map
      (fun p => (p.1, DomainAI.round3 p.2)),
    labels := st4.2,
    reported_atemporal_ids := reported_ids }

/-- The rating deltas a token receives, as the claim words it: one fixed
    delta per history record carrying both that token and a rating. -/
def ratingDeltas (token : String) : List (Option String × Option Int) → List ℚ
  | [] => []
  | rec :: rest =>
    (match rec.1, rec.2 with
     | some t, some r =>
       if t = token then [_rating_weight_adjustment r] else []
     | _, _ => []) ++ ratingDeltas token rest

/-- One signal's contribution to a token's total, as the claim words it. -/
def claimContribution (counts : List (String × ℚ)) (tf : ℚ → ℚ) (token : String) : ℚ :=
  match dictGet counts token with
  | some c => if 0 < c then tf c else 0
  | none => 0

/-- The effect of one `_apply_weights` stage on a token's stored weight. -/
def stageOpt (counts : List (String × ℚ)) (tf : ℚ → ℚ) (token : String)
    (o : Option ℚ) : Option ℚ :=
  match dictGet counts token with
  | some c => if 0 < c ∧ tf c ≠ 0 then some (o.getD 0 + tf c) else o
  | none => o

/-- A token's total weight as the claim words it: favorites plus history
    plus summed rating deltas minus the report penalty. -/
def claimTotal (ln : ℚ → ℚ)
    (favorite_counts history_counts rating_weights penalty_counts : List (String × ℚ))
    (token : String) : ℚ :=
  claimContribution favorite_counts (_favorite_weight ln) token
  + claimContribution history_counts (_history_weight ln) token
  + claimContribution rating_weights (fun value => value) token
  - claimContribution penalty_counts (_penalty_weight ln) token

end CategoryPreferences

/-! # Theorems -/

/-! ## Helper lemmas -/

theorem isPySpace_lowerChar (c : Char) : isPySpace (lowerChar c) = isPySpace c := by
  unfold lowerChar
  split <;> rfl

theorem dropWhile_map_lowerChar (l : List Char) :
    (l.map lowerChar).dropWhile isPySpace = (l.dropWhile isPySpace).map lowerChar := by
  induction l with
  | nil => rfl
  | cons c cs ih =>
    simp only [List.map_cons, List.dropWhile_cons, isPySpace_lowerChar]
    by_cases h : isPySpace c = true
    · simp [h, ih]
    · simp [h]

theorem pyStrip_pyLower (l : List Char) : pyStrip (pyLower l) = pyLower (pyStrip l) := by
  unfold pyStrip pyLower
  rw [dropWhile_map_lowerChar, ← List.map_reverse, dropWhile_map_lowerChar, List.map_reverse]

theorem insertStable_perm {α : Type} (keep : α → α → Bool) (x : α) (l : List α) :
    List.Perm (insertStable keep x l) (x :: l) := by
  induction l with
  | nil => exact List.Perm.refl _
  | cons y ys ih =>
    unfold insertStable
    by_cases h : keep x y = true
    · simp only [h, if_true]
      exact List.Perm.refl _
    · simp only [h, if_false]
      exact List.Perm.trans (ih.cons y) (List.Perm.swap x y ys)

theorem sortStable_perm {α : Type} (keep : α → α → Bool) (l : List α) :
    List.Perm (sortStable keep l) l := by
  induction l with
  | nil => exact List.Perm.refl _
  | cons y ys ih =>
    exact List.Perm.trans (insertStable_perm keep y _) (ih.cons y)

theorem sortStable_length {α : Type} (keep : α → α → Bool) (l : List α) :
    (sortStable keep l).length = l.length :=
  (sortStable_perm keep l).length_eq

theorem mem_sortStable {α : Type} (keep : α → α → Bool) (l : List α) (a : α) :
    a ∈ sortStable keep l ↔ a ∈ l :=
  (sortStable_perm keep l).mem_iff

theorem insertStable_pairwise {α : Type} (keep : α → α → Bool)
    (total : ∀ a b, keep a b = true ∨ keep b a = true)
    (trans : ∀ a b c, keep a b = true → keep b c = true → keep a c = true)
    (x : α) (l : List α) (hl : l.Pairwise (fun a b => keep a b = true)) :
    (insertStable keep x l).Pairwise (fun a b => keep a b = true) := by
  induction l with
  | nil => simp [insertStable]
  | cons y ys ih =>
    unfold insertStable
    by_cases h : keep x y = true
    · simp only [h, if_true]
      refine List.Pairwise.cons ?_ hl
      intro z hz
      rcases List.mem_cons.mp hz with rfl | hz2
      · exact h
      · exact trans x y z h ((List.pairwise_cons.mp hl).1 z hz2)
    · simp only [h, if_false]
      have hys := (List.pairwise_cons.mp hl).2
      have hy := (List.pairwise_cons.mp hl).1
      refine List.Pairwise.cons ?_ (ih hys)
      intro z hz
      have hz' := (insertStable_perm keep x ys).mem_iff.mp hz
      rcases List.mem_cons.mp hz' with rfl | hz2
      · rcases total y z with htot | htot
        · exact htot
        · exact absurd htot (by simpa using h)
      · exact hy z hz2

theorem sortStable_pairwise {α : Type} (keep : α → α → Bool)
    (total : ∀ a b, keep a b = true ∨ keep b a = true)
    (trans : ∀ a b c, keep a b = true → keep b c = true → keep a c = true)
    (l : List α) :
    (sortStable keep l).Pairwise (fun a b => keep a b = true) := by
  induction l with
  | nil => simp [sortStable]
  | cons y ys ih => exact insertStable_pairwise keep total trans y _ ih

theorem dropWhile_eq_self_of_no_space {l : List Char}
    (h : ∀ c ∈ l, isPySpace c = false) : l.dropWhile isPySpace = l := by
  cases l with
  | nil => rfl
  | cons c cs => simp [List.dropWhile_cons, h c (List.mem_cons_self c cs)]

theorem pyStrip_eq_self {l : List Char} (h : ∀ c ∈ l, isPySpace c = false) :
    pyStrip l = l := by
  unfold pyStrip
  rw [dropWhile_eq_self_of_no_space h,
      dropWhile_eq_self_of_no_space (fun c hc => h c (List.mem_reverse.mp hc)),
      List.reverse_reverse]

theorem splitWSAux_tokens (s : List Char) : ∀ (acc : List Char),
    (∀ c ∈ acc, isPySpace c = false) →
    ∀ t ∈ splitWSAux s acc, t ≠ [] ∧ ∀ c ∈ t, isPySpace c = false := by
  induction s with
  | nil =>
    intro acc hacc t ht
    unfold splitWSAux at ht
    cases ha : acc.isEmpty with
    | true => simp [ha] at ht
    | false =>
      simp [ha] at ht
      subst ht
      refine ⟨?_, fun c hc => hacc c (List.mem_reverse.mp hc)⟩
      have hne : acc ≠ [] := by simpa [List.isEmpty_iff] using ha
      simpa using hne
  | cons c cs ih =>
    intro acc hacc t ht
    unfold splitWSAux at ht
    cases hsp : isPySpace c with
    | true =>
      simp only [hsp, if_true] at ht
      cases ha : acc.isEmpty with
      | true =>
        simp only [ha, if_true] at ht
        exact ih [] (by simp) t ht
      | false =>
        simp only [ha, Bool.false_eq_true, if_false, List.mem_cons] at ht
        rcases ht with rfl | ht
        · refine ⟨?_, fun d hd => hacc d (List.mem_reverse.mp hd)⟩
          have hne : acc ≠ [] := by simpa [List.isEmpty_iff] using ha
          simpa using hne
        · exact ih [] (by simp) t ht
    | false =>
      simp only [hsp, Bool.false_eq_true, if_false] at ht
      refine ih (c :: acc) ?_ t ht
      intro d hd
      rcases List.mem_cons.mp hd with rfl | hd
      · exact hsp
      · exact hacc d hd

theorem splitWS_tokens (s : String) :
    ∀ t ∈ splitWS s, pyStripStr t = t ∧ t ≠ "" := by
  intro t ht
  unfold splitWS at ht
  rcases List.mem_map.mp ht with ⟨l, hl, rfl⟩
  have hprop := splitWSAux_tokens s.toList [] (by simp) l hl
  constructor
  · show (⟨pyStrip (String.toList ⟨l⟩)⟩ : String) = ⟨l⟩
    have hstrip : pyStrip l = l := pyStrip_eq_self hprop.2
    simp [String.toList, hstrip]
  · intro hcon
    have hnil : l = [] := by
      have := congrArg String.toList hcon
      simpa [String.toList] using this
    exact absurd hnil hprop.1

theorem findSome?_eq_head?_filterMap {α β : Type} (f : α → Option β) (l : List α) :
    l.findSome? f = (l.filterMap f).head? := by
  induction l with
  | nil => rfl
  | cons x xs ih =>
    rw [List.findSome?_cons, List.filterMap_cons]
    cases f x with
    | none => exact ih
    | some b => rfl

theorem clean_tokens_of (L : List String)
    (h : ∀ t ∈ L, pyStripStr t = t ∧ t ≠ "") :
    (L.map pyStripStr).filter (fun w => w ≠ "") = L := by
  induction L with
  | nil => rfl
  | cons t ts ih =>
    have ht := h t (List.mem_cons_self t ts)
    simp only [List.map_cons, List.filter_cons, ht.1]
    rw [if_pos (by simpa using ht.2)]
    rw [ih (fun u hu => h u (List.mem_cons_of_mem t hu))]

theorem clean_tokens (s : String) :
    (((splitWS s).map pyStripStr).filter (fun w => w ≠ "")) = splitWS s :=
  clean_tokens_of (splitWS s) (splitWS_tokens s)

theorem exact_match_valid (t v : String)
    (h : dictGet DomainAI.MOBILITY_EXACT_MATCHES t = some v) :
    DomainMobility.validate_mobility_level (some v) = Except.ok (some v) := by
  simp only [DomainAI.MOBILITY_EXACT_MATCHES, dictGet] at h
  split_ifs at h <;> simp only [Option.some.injEq] at h <;> subst h <;> rfl

theorem validate_mobility_baja :
    DomainMobility.validate_mobility_level (some "baja") = Except.ok (some "baja") := rfl

theorem validate_mobility_media :
    DomainMobility.validate_mobility_level (some "media") = Except.ok (some "media") := rfl

theorem validate_mobility_alta :
    DomainMobility.validate_mobility_level (some "alta") = Except.ok (some "alta") := rfl

theorem normalize_text_empty : DomainAI._normalize_text "" = "" := rfl

set_option maxHeartbeats 1600000 in
theorem classify_mobility_eq_spec (ans : String) :
    DomainAI._classify_mobility (some ans) = Except.ok (DomainAI.claimMobility ans) := by
  unfold DomainAI._classify_mobility DomainAI.claimMobility
  simp only [Option.getD]
  by_cases h1 : pyStripStr ans = ""
  · simp [h1, normalize_text_empty]
  · simp only [h1, if_false]
    by_cases h2 : DomainAI._normalize_text (pyStripStr ans) = ""
    · simp [h2]
    · simp only [h2, if_false]
      rw [clean_tokens, findSome?_eq_head?_filterMap]
      cases hm : ((splitWS (DomainAI._normalize_text (pyStripStr ans))).filterMap
          (fun t => dictGet DomainAI.MOBILITY_EXACT_MATCHES t)) with
      | cons mapped rest =>
        simp only [List.head?]
        have hmem : mapped ∈ ((splitWS (DomainAI._normalize_text (pyStripStr ans))).filterMap
            (fun t => dictGet DomainAI.MOBILITY_EXACT_MATCHES t)) := by
          rw [hm]; exact List.mem_cons_self _ _
        rcases List.mem_filterMap.mp hmem with ⟨t, _, hft⟩
        exact exact_match_valid t mapped hft
      | nil =>
        simp only [List.head?]
        simp only [DomainAI.MOBILITY_LEVELS, DomainMobility.ALLOWED_MOBILITY_LEVELS,
          List.find?, show ("movilidad " ++ "baja" : String) = "movilidad baja" from rfl,
          show ("movilidad " ++ "media" : String) = "movilidad media" from rfl,
          show ("movilidad " ++ "alta" : String) = "movilidad alta" from rfl]
        set N := DomainAI._normalize_text (pyStripStr ans) with hN
        cases hb : containsSubStr N "movilidad baja" with
        | true => simp [hb, validate_mobility_baja]
        | false =>
        simp only [hb]
        cases hmed : containsSubStr N "movilidad media" with
        | true => simp [hmed, validate_mobility_media]
        | false =>
        simp only [hmed]
        cases ha : containsSubStr N "movilidad alta" with
        | true => simp [ha, validate_mobility_alta]
        | false =>
        simp only [ha, Bool.false_eq_true, if_false]
        simp only [List.map_cons, List.map_nil, DomainAI.argmaxFirst, List.foldl]
        set sb := DomainAI.mobilityScore N "baja" with hsb
        set sm := DomainAI.mobilityScore N "media" with hsm
        set sa := DomainAI.mobilityScore N "alta" with hsa
        by_cases c1 : sm > sb
        · simp only [c1, if_true]
          by_cases c2 : sa > sm
          · simp only [c2, if_true]
            by_cases c3 : sa > 0
            · rw [if_pos c3, if_pos (by omega : sb ⊔ (sm ⊔ sa) > 0),
                if_neg (by omega : ¬sb = sb ⊔ (sm ⊔ sa)),
                if_neg (by omega : ¬sm = sb ⊔ (sm ⊔ sa)), validate_mobility_alta]
            · rw [if_neg c3, if_neg (by omega : ¬sb ⊔ (sm ⊔ sa) > 0)]
          · simp only [c2, if_false]
            by_cases c3 : sm > 0
            · rw [if_pos c3, if_pos (by omega : sb ⊔ (sm ⊔ sa) > 0),
                if_neg (by omega : ¬sb = sb ⊔ (sm ⊔ sa)),
                if_pos (by omega : sm = sb ⊔ (sm ⊔ sa)), validate_mobility_media]
            · rw [if_neg c3, if_neg (by omega : ¬sb ⊔ (sm ⊔ sa) > 0)]
        · simp only [c1, if_false]
          by_cases c2 : sa > sb
          · simp only [c2, if_true]
            by_cases c3 : sa > 0
            · rw [if_pos c3, if_pos (by omega : sb ⊔ (sm ⊔ sa) > 0),
                if_neg (by omega : ¬sb = sb ⊔ (sm ⊔ sa)),
                if_neg (by omega : ¬sm = sb ⊔ (sm ⊔ sa)), validate_mobility_alta]
            · rw [if_neg c3, if_neg (by omega : ¬sb ⊔ (sm ⊔ sa) > 0)]
          · simp only [c2, if_false]
            by_cases c3 : sb > 0
            · rw [if_pos c3, if_pos (by omega : sb ⊔ (sm ⊔ sa) > 0),
                if_pos (by omega : sb = sb ⊔ (sm ⊔ sa)), validate_mobility_baja]
            · rw [if_neg c3, if_neg (by omega : ¬sb ⊔ (sm ⊔ sa) > 0)]

/-- **C5** (amended): mobility classification first returns the level of a
    normalized whitespace token that exactly matches the dictionary, else
    matches the literal phrase "movilidad <level>", else scores each level
    at +2 per occurring keyword phrase and returns the level with the
    highest positive total — on a tie of positive totals the earliest
    level in the order baja, media, alta wins (the original claim's
    "`None` on ties" is what the code does only for all-zero totals); in
    particular "tengo movilidad baja" → baja, "camino bien, sin
    limitaciones" → alta, and "hola" → None. -/
theorem mobility_classification_characterization :
    (∀ ans : String, DomainAI._classify_mobility (some ans) =
        Except.ok (DomainAI.claimMobility ans))
    ∧ DomainAI._classify_mobility (some "tengo movilidad baja") = Except.ok (some "baja")
    ∧ DomainAI._classify_mobility (some "camino bien, sin limitaciones") = Except.ok (some "alta")
    ∧ DomainAI._classify_mobility (some "hola") = Except.ok none :=
  ⟨classify_mobility_eq_spec, rfl, rfl, rfl⟩

/-- **C5** counterexample: on "me cuesta caminar y camino bien" the keyword
    totals of baja ("me cuesta caminar") and alta ("camino bien") are both
    2 — a tie of positive totals with no exact-token or phrase match — yet
    the classifier returns a level (`baja`), not `None` as the claim
    states. -/
theorem mobility_tie_returns_level :
    DomainAI.mobilityScore "me cuesta caminar y camino bien" "baja" = 2
    ∧ DomainAI.mobilityScore "me cuesta caminar y camino bien" "alta" = 2
    ∧ DomainAI._classify_mobility (some "me cuesta caminar y camino bien") =
        Except.ok (some "baja") :=
  ⟨rfl, rfl, rfl⟩

/-- **C8**: the ranking filter's category-token normalizer
    (`domain_activities._normalize_category_token`) and the
    preference-learning aggregator's (`category_preferences._normalize_category_token`)
    agree on every input; the shared token of "Física" is "fisica", and
    consequently the catalog entries surviving the filter `["fisica"]`
    with interest "Caminatas / trekking" are exactly the two walking
    activities categorized "Física" (ids 1 and 37). -/
theorem category_token_normalizers_agree :
    (∀ v : Option String,
        DomainActivities._normalize_category_token v =
          CategoryPreferences._normalize_category_token v)
    ∧ DomainActivities._normalize_category_token (some "Física") = some "fisica"
    ∧ ((DomainActivities.ATEMPORAL_ACTIVITIES.filter
          (DomainActivities.survives
            (DomainActivities.interestNames ["Caminatas / trekking"])
            (DomainActivities.allowedCategories (some ["fisica"])))).map
        (fun a => a.id)) = [1, 37] := by
  refine ⟨?_, rfl, by decide⟩
  intro v
  cases v with
  | none => rfl
  | some s =>
    simp only [DomainActivities._normalize_category_token,
      CategoryPreferences._normalize_category_token]
    rw [pyStrip_pyLower]

/-- **C9** (amended): the preparation validator raises exactly when the
    non-`None` value is not one of the three allowed levels and passes
    valid values through unchanged; the mobility validator first
    `strip().lower()`-normalizes its input and raises exactly when the
    normalized value is non-empty and not an allowed level — a value that
    normalizes to an allowed level (e.g. " ALTA ") is accepted in coerced
    form, and a value that normalizes to empty yields `None`; `None`
    passes through both validators. -/
theorem level_validators_characterization :
    (DomainPreparation.validate_level none = Except.ok none)
    ∧ (∀ l : String, (∃ e, DomainPreparation.validate_level (some l) = Except.error e)
        ↔ ¬ l ∈ DomainPreparation.ALLOWED_LEVELS)
    ∧ (∀ l : String, l ∈ DomainPreparation.ALLOWED_LEVELS →
        DomainPreparation.validate_level (some l) = Except.ok (some l))
    ∧ (DomainMobility.validate_mobility_level none = Except.ok none)
    ∧ (∀ l : String,
        (∃ e, DomainMobility.validate_mobility_level (some l) = Except.error e)
          ↔ (pyLowerStr (pyStripStr l) ≠ "" ∧
             ¬ pyLowerStr (pyStripStr l) ∈ DomainMobility.ALLOWED_MOBILITY_LEVELS))
    ∧ (∀ l : String, pyLowerStr (pyStripStr l) = "" →
        DomainMobility.validate_mobility_level (some l) = Except.ok none)
    ∧ (∀ l : String, pyLowerStr (pyStripStr l) ∈ DomainMobility.ALLOWED_MOBILITY_LEVELS →
        DomainMobility.validate_mobility_level (some l) = Except.ok (some (pyLowerStr (pyStripStr l)))) := by
  refine ⟨rfl, ?_, ?_, rfl, ?_, ?_, ?_⟩
  · intro l
    unfold DomainPreparation.validate_level
    by_cases h : l ∈ DomainPreparation.ALLOWED_LEVELS
    · simp [h]
    · simp [h]
  · intro l hmem
    unfold DomainPreparation.validate_level
    simp [hmem]
  · intro l
    unfold DomainMobility.validate_mobility_level
    by_cases he : pyLowerStr (pyStripStr l) = ""
    · simp [he]
    · by_cases h : pyLowerStr (pyStripStr l) ∈ DomainMobility.ALLOWED_MOBILITY_LEVELS
      · simp [he, h]
      · simp [he, h]
  · intro l he
    unfold DomainMobility.validate_mobility_level
    simp [he]
  · intro l hmem
    unfold DomainMobility.validate_mobility_level
    by_cases he : pyLowerStr (pyStripStr l) = ""
    · rw [he] at hmem
      simp [DomainMobility.ALLOWED_MOBILITY_LEVELS] at hmem
    · simp [he, hmem]

/-- **C9** counterexample: `" ALTA "` is not `None` and is not one of the
    three allowed mobility levels, yet the mobility validator raises no
    error and silently coerces it to `"alta"`. -/
theorem mobility_validator_coerces :
    DomainMobility.validate_mobility_level (some " ALTA ") = Except.ok (some "alta")
    ∧ ¬ " ALTA " ∈ DomainMobility.ALLOWED_MOBILITY_LEVELS :=
  ⟨rfl, by decide⟩

/-- **C9** witness: instantiating the characterization at "planificado"
    and " ALTA ". -/
theorem level_validators_witness :
    DomainPreparation.validate_level (some "planificado") = Except.ok (some "planificado")
    ∧ DomainMobility.validate_mobility_level (some " MEDIA ") = Except.ok (some (pyLowerStr (pyStripStr " MEDIA "))) :=
  ⟨level_validators_characterization.2.2.1 "planificado" (by decide),
   level_validators_characterization.2.2.2.2.2.2 " MEDIA " (by decide)⟩

theorem catalog_not_fallback :
    ∀ a ∈ DomainActivities.ATEMPORAL_ACTIVITIES, a.is_fallback = false := by decide

theorem prepare_is_fallback (a : DomainActivities.Activity) :
    (DomainActivities.prepare a).is_fallback = a.is_fallback := by
  unfold DomainActivities.prepare
  split <;> rfl

theorem scoredEntries_eq_nil_iff (jitter : Nat → ℚ) (names : List String)
    (prep : Option String) (allowed : Option (List String)) (tod : Option String) :
    DomainActivities.scoredEntries jitter names prep allowed tod = [] ↔
      DomainActivities.ATEMPORAL_ACTIVITIES.filter (DomainActivities.survives names allowed) = [] := by
  unfold DomainActivities.scoredEntries
  rw [List.map_eq_nil_iff, List.enum_eq_nil]

theorem mem_scoredEntries (jitter : Nat → ℚ) (names : List String)
    (prep : Option String) (allowed : Option (List String)) (tod : Option String)
    (p : ℚ × DomainActivities.Activity)
    (hp : p ∈ DomainActivities.scoredEntries jitter names prep allowed tod) :
    (∃ i, p.1 = (DomainActivities.baseScore names prep tod p.2 : ℚ) + jitter i)
    ∧ p.2 ∈ DomainActivities.ATEMPORAL_ACTIVITIES.filter (DomainActivities.survives names allowed) := by
  unfold DomainActivities.scoredEntries at hp
  rcases List.mem_map.mp hp with ⟨q, hq, rfl⟩
  exact ⟨⟨q.1, rfl⟩, List.snd_mem_of_mem_enum hq⟩

theorem length_scoredEntries (jitter : Nat → ℚ) (names : List String)
    (prep : Option String) (allowed : Option (List String)) (tod : Option String) :
    (DomainActivities.scoredEntries jitter names prep allowed tod).length =
      (DomainActivities.ATEMPORAL_ACTIVITIES.filter (DomainActivities.survives names allowed)).length := by
  unfold DomainActivities.scoredEntries
  rw [List.length_map, List.enum_length]

/-- **C1**: `recommend_atemporales` always returns a non-empty list; it
    returns exactly `[prepare FALLBACK_ACTIVITY]` (whose `is_fallback` is
    `true`) iff no catalog entry survives the category filter and the
    tag-overlap test; otherwise it returns between 1 and `max 1 limit`
    entries, all with `is_fallback = false`.  Quantified over every jitter
    draw sequence. -/
theorem recommend_nonempty_fallback_iff (jitter : Nat → ℚ)
    (user_interests : List String) (preparation_level : Option String)
    (limit : Int) (categories : Option (List String)) (time_of_day : Option String) :
    DomainActivities.recommend_atemporales jitter user_interests preparation_level
        limit categories time_of_day ≠ []
    ∧ (DomainActivities.recommend_atemporales jitter user_interests preparation_level
          limit categories time_of_day =
        [DomainActivities.prepare DomainActivities.FALLBACK_ACTIVITY] ↔
        DomainActivities.survivorsList user_interests categories = [])
    ∧ (DomainActivities.prepare DomainActivities.FALLBACK_ACTIVITY).is_fallback = true
    ∧ (DomainActivities.survivorsList user_interests categories ≠ [] →
        (∀ a ∈ DomainActivities.recommend_atemporales jitter user_interests preparation_level
            limit categories time_of_day, a.is_fallback = false)
        ∧ 1 ≤ (DomainActivities.recommend_atemporales jitter user_interests preparation_level
            limit categories time_of_day).length
        ∧ ((DomainActivities.recommend_atemporales jitter user_interests preparation_level
            limit categories time_of_day).length : Int) ≤ max 1 limit) := by
  set names := DomainActivities.interestNames user_interests with hnames
  set allowed := DomainActivities.allowedCategories categories with hallowed
  set scored := DomainActivities.scoredEntries jitter names preparation_level allowed time_of_day with hscored
  have hsurv : DomainActivities.survivorsList user_interests categories =
      DomainActivities.ATEMPORAL_ACTIVITIES.filter (DomainActivities.survives names allowed) := rfl
  have hrec : DomainActivities.recommend_atemporales jitter user_interests preparation_level
      limit categories time_of_day =
      if scored = [] then [DomainActivities.prepare DomainActivities.FALLBACK_ACTIVITY]
      else ((sortStable (fun p q : ℚ × DomainActivities.Activity => decide (p.1 ≥ q.1)) scored).take
        (max 1 limit).toNat).map (fun p => DomainActivities.prepare p.2) := rfl
  by_cases hempty : scored = []
  · have hsnil : DomainActivities.survivorsList user_interests categories = [] := by
      rw [hsurv]
      exact (scoredEntries_eq_nil_iff jitter names preparation_level allowed time_of_day).mp hempty
    rw [hrec, if_pos hempty]
    refine ⟨by simp, ?_, rfl, ?_⟩
    · simp [hsnil]
    · intro hcon
      exact absurd hsnil hcon
  · have hsne : DomainActivities.survivorsList user_interests categories ≠ [] := by
      rw [hsurv]
      intro hcon
      exact hempty ((scoredEntries_eq_nil_iff jitter names preparation_level allowed time_of_day).mpr hcon)
    rw [hrec, if_neg hempty]
    have hlen : ((sortStable (fun p q : ℚ × DomainActivities.Activity => decide (p.1 ≥ q.1)) scored).take
        (max 1 limit).toNat).length = min (max 1 limit).toNat scored.length := by
      rw [List.length_take, sortStable_length]
    have hscorednn : 1 ≤ scored.length := by
      rcases List.exists_mem_of_ne_nil scored hempty with ⟨p, hp⟩
      exact List.length_pos.mpr hempty
    have htake1 : 1 ≤ (max 1 limit).toNat := by omega
    have hmemfb : ∀ a ∈ ((sortStable (fun p q : ℚ × DomainActivities.Activity => decide (p.1 ≥ q.1)) scored).take
        (max 1 limit).toNat).map (fun p => DomainActivities.prepare p.2), a.is_fallback = false := by
      intro a ha
      rcases List.mem_map.mp ha with ⟨p, hp, rfl⟩
      have hpsc : p ∈ scored := (mem_sortStable _ scored p).mp (List.mem_of_mem_take hp)
      have hmem := (mem_scoredEntries jitter names preparation_level allowed time_of_day p hpsc).2
      have hcat := List.mem_of_mem_filter hmem
      rw [prepare_is_fallback]
      exact catalog_not_fallback p.2 hcat
    refine ⟨?_, ?_, rfl, ?_⟩
    · intro hcon
      have := congrArg List.length hcon
      rw [List.length_map, hlen] at this
      simp only [List.length_nil] at this
      omega
    · constructor
      · intro hcon
        have hfb : (DomainActivities.prepare DomainActivities.FALLBACK_ACTIVITY).is_fallback = false := by
          apply hmemfb
          rw [hcon]
          exact List.mem_singleton.mpr rfl
        simp [DomainActivities.prepare, DomainActivities.FALLBACK_ACTIVITY] at hfb
      · intro hcon
        exact absurd hcon hsne
    · intro _
      refine ⟨hmemfb, ?_, ?_⟩
      · rw [List.length_map, hlen]
        omega
      · rw [List.length_map, hlen]
        have : min (max 1 limit).toNat scored.length ≤ (max 1 limit).toNat := Nat.min_le_left _ _
        omega

theorem energy_weight_cases (level : Option String) (e : String) :
    DomainActivities._energy_weight level e =
      (match level with
       | some l =>
         if l = "desorientado" then
           (if e = "baja" then 4 else if e = "media" then 1 else if e = "alta" then -3 else 0)
         else if l = "intermedio" then
           (if e = "baja" then 2 else if e = "media" then 3 else if e = "alta" then 0 else 0)
         else if l = "planificado" then
           (if e = "baja" then 0 else if e = "media" then 2 else if e = "alta" then 3 else 0)
         else 0
       | none => 0) := by
  cases level with
  | none => rfl
  | some l => simp [DomainActivities._energy_weight]

theorem duration_weight_cases (level : Option String) (m : Int) :
    DomainActivities._duration_weight level m =
      (match level with
       | some l =>
         if l = "desorientado" then
           (if m ≤ 30 then 1 else if m > 45 then -1 else 0)
         else if l = "intermedio" then
           (if 20 ≤ m ∧ m ≤ 60 then 1 else 0)
         else if l = "planificado" then
           (if 30 ≤ m ∧ m ≤ 90 then 1 else 0)
         else 0
       | none => 0) := by
  cases level with
  | none => rfl
  | some l => simp [DomainActivities._duration_weight]

theorem time_weight_cases (pref : Option String) (tod : String) :
    DomainActivities._time_weight pref tod =
      (match pref with
       | some t =>
         if t = "" then 0 else if t = "cualquiera" then 0
         else if t = tod then 1 else 0
       | none => 0) := by
  cases pref with
  | none => rfl
  | some p =>
    unfold DomainActivities._time_weight
    by_cases h1 : p = ""
    · simp [h1]
    · by_cases h2 : p = "cualquiera"
      · simp [h1, h2]
      · simp [h1, h2]

theorem baseScore_eq_specScore (names : List String) (prep : Option String)
    (tod : Option String) (a : DomainActivities.Activity) :
    DomainActivities.baseScore names prep tod a =
      DomainActivities.specScore prep tod names a := by
  unfold DomainActivities.baseScore DomainActivities.specScore
  rw [energy_weight_cases, duration_weight_cases, time_weight_cases]
  ring

theorem scoreKeep_total (a b : ℚ × DomainActivities.Activity) :
    decide (a.1 ≥ b.1) = true ∨ decide (b.1 ≥ a.1) = true := by
  rcases le_total a.1 b.1 with h | h
  · right; exact decide_eq_true h
  · left; exact decide_eq_true h

theorem scoreKeep_trans (a b c : ℚ × DomainActivities.Activity)
    (h1 : decide (a.1 ≥ b.1) = true) (h2 : decide (b.1 ≥ c.1) = true) :
    decide (a.1 ≥ c.1) = true :=
  decide_eq_true (le_trans (of_decide_eq_true h2) (of_decide_eq_true h1))

/-- **C2**: every scored survivor's score is the specification's formula
    (interest overlap ×10, energy table, duration weight, free-cost bonus,
    time-of-day bonus, indoor bonus for desorientado) plus a jitter term
    in [-1/2, 1/2); and the returned list is (a `max 1 limit`-prefix of)
    the survivors sorted by this score in descending order, each entry
    post-processed by `prepare`. -/
theorem recommend_score_formula_and_order (jitter : Nat → ℚ)
    (hj : ∀ i, -(1/2 : ℚ) ≤ jitter i ∧ jitter i < 1/2)
    (user_interests : List String) (preparation_level : Option String)
    (limit : Int) (categories : Option (List String)) (time_of_day : Option String) :
    (∀ p ∈ DomainActivities.scoredEntries jitter (DomainActivities.interestNames user_interests)
        preparation_level (DomainActivities.allowedCategories categories) time_of_day,
      p.2 ∈ DomainActivities.survivorsList user_interests categories
      ∧ ∃ j : ℚ, -(1/2 : ℚ) ≤ j ∧ j < 1/2 ∧
          p.1 = (DomainActivities.specScore preparation_level time_of_day
            (DomainActivities.interestNames user_interests) p.2 : ℚ) + j)
    ∧ List.Perm
        (sortStable (fun p q : ℚ × DomainActivities.Activity => decide (p.1 ≥ q.1))
          (DomainActivities.scoredEntries jitter (DomainActivities.interestNames user_interests)
            preparation_level (DomainActivities.allowedCategories categories) time_of_day))
        (DomainActivities.scoredEntries jitter (DomainActivities.interestNames user_interests)
          preparation_level (DomainActivities.allowedCategories categories) time_of_day)
    ∧ (sortStable (fun p q : ℚ × DomainActivities.Activity => decide (p.1 ≥ q.1))
        (DomainActivities.scoredEntries jitter (DomainActivities.interestNames user_interests)
          preparation_level (DomainActivities.allowedCategories categories) time_of_day)).Pairwise
        (fun p q => p.1 ≥ q.1)
    ∧ (DomainActivities.survivorsList user_interests categories ≠ [] →
        DomainActivities.recommend_atemporales jitter user_interests preparation_level
            limit categories time_of_day =
          ((sortStable (fun p q : ℚ × DomainActivities.Activity => decide (p.1 ≥ q.1))
            (DomainActivities.scoredEntries jitter (DomainActivities.interestNames user_interests)
              preparation_level (DomainActivities.allowedCategories categories) time_of_day)).take
            (max 1 limit).toNat).map (fun p => DomainActivities.prepare p.2)) := by
  refine ⟨?_, sortStable_perm _ _, ?_, ?_⟩
  · intro p hp
    have h := mem_scoredEntries jitter _ preparation_level _ time_of_day p hp
    refine ⟨h.2, ?_⟩
    rcases h.1 with ⟨i, hi⟩
    exact ⟨jitter i, (hj i).1, (hj i).2, by rw [hi, baseScore_eq_specScore]⟩
  · have := sortStable_pairwise (fun p q : ℚ × DomainActivities.Activity => decide (p.1 ≥ q.1))
      scoreKeep_total scoreKeep_trans
      (DomainActivities.scoredEntries jitter (DomainActivities.interestNames user_interests)
        preparation_level (DomainActivities.allowedCategories categories) time_of_day)
    exact this.imp (fun h => of_decide_eq_true h)
  · intro hne
    have hscored : DomainActivities.scoredEntries jitter (DomainActivities.interestNames user_interests)
        preparation_level (DomainActivities.allowedCategories categories) time_of_day ≠ [] := by
      intro hcon
      exact hne ((scoredEntries_eq_nil_iff jitter _ preparation_level _ time_of_day).mp hcon)
    show (if _ = ([] : List (ℚ × DomainActivities.Activity)) then _ else _) = _
    rw [if_neg hscored]

/-- **C2** witness: the formula/order theorem instantiated at the zero
    jitter sequence and a concrete request. -/
theorem recommend_score_formula_witness :
    (sortStable (fun p q : ℚ × DomainActivities.Activity => decide (p.1 ≥ q.1))
      (DomainActivities.scoredEntries (fun _ => 0) (DomainActivities.interestNames ["Caminatas / trekking"])
        (some "desorientado") (DomainActivities.allowedCategories none) none)).Pairwise
      (fun p q => p.1 ≥ q.1) :=
  (recommend_score_formula_and_order (fun _ => 0)
    (fun _ => ⟨neg_nonpos_of_nonneg one_half_pos.le, one_half_pos⟩)
    ["Caminatas / trekking"] (some "desorientado") 5 none none).2.2.1

/-- **C1** witness: a concrete request with a surviving catalog entry
    yields a non-empty, non-fallback result within the limit. -/
theorem recommend_nonempty_witness :
    DomainActivities.recommend_atemporales (fun _ => 0) ["Caminatas / trekking"]
        none 5 none none ≠ []
    ∧ (∀ a ∈ DomainActivities.recommend_atemporales (fun _ => 0) ["Caminatas / trekking"]
        none 5 none none, a.is_fallback = false)
    ∧ ((DomainActivities.recommend_atemporales (fun _ => 0) ["Caminatas / trekking"]
        none 5 none none).length : Int) ≤ max 1 5 :=
  ⟨(recommend_nonempty_fallback_iff (fun _ => 0) ["Caminatas / trekking"] none 5 none none).1,
   ((recommend_nonempty_fallback_iff (fun _ => 0) ["Caminatas / trekking"] none 5 none none).2.2.2
     (by decide)).1,
   ((recommend_nonempty_fallback_iff (fun _ => 0) ["Caminatas / trekking"] none 5 none none).2.2.2
     (by decide)).2.2⟩

theorem suggestLoop_acc_ne_nil (l : List (ℚ × CatalogEmbeddings.InterestRow)) :
    ∀ (b : Nat) (acc : List DomainAI.Suggestion), acc ≠ [] →
      DomainAI.suggestLoop (l.take b) acc = acc ++ DomainAI.tailWalkBudget b l := by
  induction l with
  | nil =>
    intro b acc hacc
    cases b <;> simp [DomainAI.suggestLoop, DomainAI.tailWalkBudget]
  | cons x rest ih =>
    intro b acc hacc
    cases b with
    | zero => simp [DomainAI.suggestLoop, DomainAI.tailWalkBudget]
    | succ b =>
      rcases x with ⟨s, r⟩
      rw [List.take_succ_cons]
      unfold DomainAI.suggestLoop DomainAI.tailWalkBudget
      by_cases hs : s < DomainAI.MIN_INTEREST_SCORE
      · simp [hs, hacc]
      · have hcond : ¬ (s < DomainAI.MIN_INTEREST_SCORE ∧ acc ≠ []) := fun h => hs h.1
        rw [if_neg hcond, if_neg hs, ih b (acc ++ [DomainAI.mkSuggestion r s]) (by simp)]
        simp

theorem suggestSpecWalk_shift (K : Nat) (l : List (ℚ × CatalogEmbeddings.InterestRow)) :
    ∀ n : Nat, 1 ≤ n →
      DomainAI.suggestSpecWalk K l n = DomainAI.tailWalkBudget (K - n) l := by
  induction l with
  | nil =>
    intro n _
    cases hkn : K - n <;> rfl
  | cons x rest ih =>
    intro n hn
    rcases x with ⟨s, r⟩
    unfold DomainAI.suggestSpecWalk
    by_cases hK : K ≤ n
    · rw [if_pos hK]
      have : K - n = 0 := by omega
      rw [this]
      rfl
    · rw [if_neg hK]
      have hKn : K - n = (K - (n + 1)) + 1 := by omega
      rw [hKn]
      unfold DomainAI.tailWalkBudget
      by_cases hs : s < DomainAI.MIN_INTEREST_SCORE
      · rw [if_pos ⟨hs, by omega⟩, if_pos hs]
      · rw [if_neg (fun h => hs h.1), if_neg hs, ih (n + 1) (by omega)]

theorem tailWalkBudget_isPrefix (b : Nat) (l : List (ℚ × CatalogEmbeddings.InterestRow)) :
    DomainAI.tailWalkBudget b l <+:
      l.map (fun p => DomainAI.mkSuggestion p.2 p.1) := by
  induction l generalizing b with
  | nil => cases b <;> simp [DomainAI.tailWalkBudget]
  | cons x rest ih =>
    cases b with
    | zero => simp [DomainAI.tailWalkBudget]
    | succ b =>
      rcases x with ⟨s, r⟩
      unfold DomainAI.tailWalkBudget
      by_cases hs : s < DomainAI.MIN_INTEREST_SCORE
      · simp [hs]
      · rw [if_neg hs]
        simp only [List.map_cons]
        rcases ih b with ⟨t, ht⟩
        exact ⟨t, by rw [List.cons_append, ht]⟩

/-- **C3**: for a non-empty list of trimmed non-empty answers and a
    non-empty loaded catalog (and the provider returning one vector per
    answer, `topK ≥ 1` as the request schema enforces), interest
    suggestion returns exactly the specification's threshold walk over
    the rows sorted by best score descending; the result is a non-empty
    prefix of that sorted order, and every emitted suggestion is its
    row's best cosine similarity rounded to 3 decimals
    (`mkSuggestion` rounds via `round3`). -/
theorem interest_suggestions_characterization
    (sha1hex : String → String) (model_id : String)
    (embed : List String → List (List ℚ))
    (store : List CatalogEmbeddings.InterestDoc)
    (answers : List String) (top_k : Int)
    (catalog : List (CatalogEmbeddings.InterestRow × List ℚ))
    (hclean : (answers.map pyStripStr).filter (fun a => a ≠ "") ≠ [])
    (hlen : (embed (((answers.map pyStripStr).filter (fun a => a ≠ "")).map
        (fun text => "query: " ++ text))).length =
        ((answers.map pyStripStr).filter (fun a => a ≠ "")).length)
    (hload : CatalogEmbeddings.load_interest_embeddings sha1hex model_id embed store =
        Except.ok catalog)
    (hcat : catalog ≠ [])
    (htop : 1 ≤ top_k) :
    DomainAI._interest_suggestions sha1hex model_id embed store answers top_k =
      Except.ok (DomainAI.suggestSpec catalog
        (embed (((answers.map pyStripStr).filter (fun a => a ≠ "")).map
          (fun text => "query: " ++ text))) top_k)
    ∧ DomainAI.suggestSpec catalog
        (embed (((answers.map pyStripStr).filter (fun a => a ≠ "")).map
          (fun text => "query: " ++ text))) top_k ≠ []
    ∧ DomainAI.suggestSpec catalog
        (embed (((answers.map pyStripStr).filter (fun a => a ≠ "")).map
          (fun text => "query: " ++ text))) top_k <+:
        (sortStable (fun p q : ℚ × CatalogEmbeddings.InterestRow => decide (p.1 ≥ q.1))
          (catalog.map (fun rv => (DomainAI.bestSim rv.2
            (embed (((answers.map pyStripStr).filter (fun a => a ≠ "")).map
              (fun text => "query: " ++ text))), rv.1)))).map
          (fun p => DomainAI.mkSuggestion p.2 p.1)
    ∧ ∀ sug ∈ DomainAI.suggestSpec catalog
        (embed (((answers.map pyStripStr).filter (fun a => a ≠ "")).map
          (fun text => "query: " ++ text))) top_k,
        ∃ rv ∈ catalog, sug = DomainAI.mkSuggestion rv.1 (DomainAI.bestSim rv.2
          (embed (((answers.map pyStripStr).filter (fun a => a ≠ "")).map
            (fun text => "query: " ++ text)))) := by
  set answer_vectors := embed (((answers.map pyStripStr).filter (fun a => a ≠ "")).map
    (fun text => "query: " ++ text)) with hav
  set scored := catalog.map (fun rv => (DomainAI.bestSim rv.2 answer_vectors, rv.1)) with hscdef
  set sorted := sortStable (fun p q : ℚ × CatalogEmbeddings.InterestRow => decide (p.1 ≥ q.1))
    scored with hsodef
  have hscne : scored ≠ [] := by
    rw [hscdef]
    intro hcon
    exact hcat (List.map_eq_nil_iff.mp hcon)
  have hsone : sorted ≠ [] := by
    intro hcon
    have := congrArg List.length hcon
    rw [hsodef, sortStable_length] at this
    exact hscne (List.length_eq_zero.mp this)
  rcases List.exists_cons_of_ne_nil hsone with ⟨x, rest, hx⟩
  rcases x with ⟨s, r⟩
  have hmax : max 1 top_k = top_k := max_eq_right htop
  have hKpos : 1 ≤ top_k.toNat := by omega
  rcases Nat.exists_eq_add_of_le hKpos with ⟨m, hm⟩
  rw [Nat.add_comm] at hm
  -- the common walked list
  have hwalk_core : DomainAI.suggestLoop (sorted.take (max 1 top_k).toNat) [] =
      DomainAI.mkSuggestion r s :: DomainAI.tailWalkBudget m rest := by
    rw [hmax, hx, hm, List.take_succ_cons]
    unfold DomainAI.suggestLoop
    rw [if_neg (by simp)]
    simp only [List.nil_append]
    rw [suggestLoop_acc_ne_nil rest m [DomainAI.mkSuggestion r s] (by simp)]
    simp
  have hwalk_spec : DomainAI.suggestSpecWalk top_k.toNat sorted 0 =
      DomainAI.mkSuggestion r s :: DomainAI.tailWalkBudget m rest := by
    rw [hx]
    unfold DomainAI.suggestSpecWalk
    rw [if_neg (by omega), if_neg (by simp)]
    rw [suggestSpecWalk_shift top_k.toNat rest 1 (by omega)]
    have hm1 : top_k.toNat - 1 = m := by omega
    rw [hm1]
  have hspec : DomainAI.suggestSpec catalog answer_vectors top_k =
      DomainAI.mkSuggestion r s :: DomainAI.tailWalkBudget m rest := by
    simp only [DomainAI.suggestSpec]
    rw [← hscdef, ← hsodef, hwalk_spec]
  have hcore : DomainAI._interest_suggestions_core catalog answer_vectors top_k =
      DomainAI.mkSuggestion r s :: DomainAI.tailWalkBudget m rest := by
    simp only [DomainAI._interest_suggestions_core]
    rw [← hscdef, ← hsodef, hwalk_core]
    simp
  have hprefix : DomainAI.suggestSpec catalog answer_vectors top_k <+:
      sorted.map (fun p => DomainAI.mkSuggestion p.2 p.1) := by
    rw [hspec, hx, List.map_cons]
    rcases tailWalkBudget_isPrefix m rest with ⟨t, ht⟩
    exact ⟨t, by rw [List.cons_append, ht]⟩
  refine ⟨?_, ?_, hprefix, ?_⟩
  · simp only [DomainAI._interest_suggestions]
    rw [if_neg hclean, ← hav, if_neg (not_not_intro hlen), hload]
    show Except.ok (DomainAI._interest_suggestions_core catalog answer_vectors top_k) =
      Except.ok (DomainAI.suggestSpec catalog answer_vectors top_k)
    rw [hcore, hspec]
  · rw [hspec]
    simp
  · intro sug hsug
    have hmem : sug ∈ sorted.map (fun p => DomainAI.mkSuggestion p.2 p.1) :=
      hprefix.subset hsug
    rcases List.mem_map.mp hmem with ⟨p, hp, rfl⟩
    have hpsc : p ∈ scored := (mem_sortStable _ scored p).mp hp
    rcases List.mem_map.mp hpsc with ⟨rv, hrv, rfl⟩
    exact ⟨rv, hrv, rfl⟩

theorem except_toOption_some {ε α : Type} (e : Except ε α) (a : α)
    (h : e.toOption = some a) : e = Except.ok a := by
  cases e with
  | ok b =>
    have h2 : some b = some a := h
    rw [Option.some.inj h2]
  | error err =>
    have h2 : (none : Option α) = some a := h
    exact absurd h2 (by simp)

/-- **C3** witness: the characterization instantiated at a one-answer
    run over the freshly seeded and embedded 35-interest catalog
    (non-empty suggestions). -/
theorem interest_suggestions_witness :
    DomainAI.suggestSpec
      [({ id := 17, name := "Club de lectura", category := some "Aprendizaje y Desarrollo Personal" }, [(1 : ℚ)]),
       ({ id := 16, name := "Cursos online / talleres", category := some "Aprendizaje y Desarrollo Personal" }, [(1 : ℚ)]),
       ({ id := 14, name := "Historia y cultura", category := some "Aprendizaje y Desarrollo Personal" }, [(1 : ℚ)]),
       ({ id := 13, name := "Idiomas", category := some "Aprendizaje y Desarrollo Personal" }, [(1 : ℚ)]),
       ({ id := 15, name := "Tecnología (apps, redes sociales)", category := some "Aprendizaje y Desarrollo Personal" }, [(1 : ℚ)]),
       ({ id := 5, name := "Escritura / lectura creativa", category := some "Creatividad y Arte" }, [(1 : ℚ)]),
       ({ id := 4, name := "Fotografía", category := some "Creatividad y Arte" }, [(1 : ℚ)]),
       ({ id := 2, name := "Manualidades (tejido, carpintería, cerámica)", category := some "Creatividad y Arte" }, [(1 : ℚ)]),
       ({ id := 3, name := "Música (escuchar, cantar, tocar instrumento)", category := some "Creatividad y Arte" }, [(1 : ℚ)]),
       ({ id := 1, name := "Pintura / Dibujo", category := some "Creatividad y Arte" }, [(1 : ℚ)]),
       ({ id := 9, name := "Baile", category := some "Deporte y Bienestar" }, [(1 : ℚ)]),
       ({ id := 6, name := "Caminatas / trekking", category := some "Deporte y Bienestar" }, [(1 : ℚ)]),
       ({ id := 10, name := "Ciclismo", category := some "Deporte y Bienestar" }, [(1 : ℚ)]),
       ({ id := 7, name := "Gimnasia suave / yoga / pilates", category := some "Deporte y Bienestar" }, [(1 : ℚ)]),
       ({ id := 12, name := "Jardinería", category := some "Deporte y Bienestar" }, [(1 : ℚ)]),
       ({ id := 8, name := "Natación", category := some "Deporte y Bienestar" }, [(1 : ℚ)]),
       ({ id := 11, name := "Pesca", category := some "Deporte y Bienestar" }, [(1 : ℚ)]),
       ({ id := 30, name := "Eventos culturales y ferias", category := some "Ocio y Cultura" }, [(1 : ℚ)]),
       ({ id := 29, name := "Gastronomía (recetas, restaurantes)", category := some "Ocio y Cultura" }, [(1 : ℚ)]),
       ({ id := 28, name := "Museos, teatro, cine", category := some "Ocio y Cultura" }, [(1 : ℚ)]),
       ({ id := 27, name := "Viajes y turismo local", category := some "Ocio y Cultura" }, [(1 : ℚ)]),
       ({ id := 25, name := "Autocuidado (skincare, spa casero, etc.)", category := some "Salud y Cuidado Personal" }, [(1 : ℚ)]),
       ({ id := 24, name := "Cocina saludable", category := some "Salud y Cuidado Personal" }, [(1 : ℚ)]),
       ({ id := 26, name := "Control de salud / chequeos", category := some "Salud y Cuidado Personal" }, [(1 : ℚ)]),
       ({ id := 23, name := "Meditación / mindfulness", category := some "Salud y Cuidado Personal" }, [(1 : ℚ)]),
       ({ id := 22, name := "Actividades con nietos / familia", category := some "Social y Comunitario" }, [(1 : ℚ)]),
       ({ id := 20, name := "Actividades religiosas o espirituales", category := some "Social y Comunitario" }, [(1 : ℚ)]),
       ({ id := 19, name := "Clubes sociales / centros de adulto mayor", category := some "Social y Comunitario" }, [(1 : ℚ)]),
       ({ id := 21, name := "Juegos de mesa / cartas", category := some "Social y Comunitario" }, [(1 : ℚ)]),
       ({ id := 18, name := "Voluntariado", category := some "Social y Comunitario" }, [(1 : ℚ)]),
       ({ id := 35, name := "Apps de finanzas, salud, transporte", category := some "Tecnología y Digital" }, [(1 : ℚ)]),
       ({ id := 34, name := "Fotografía y edición digital", category := some "Tecnología y Digital" }, [(1 : ℚ)]),
       ({ id := 33, name := "Juegos digitales (apps, consolas, PC)", category := some "Tecnología y Digital" }, [(1 : ℚ)]),
       ({ id := 31, name := "Redes sociales", category := some "Tecnología y Digital" }, [(1 : ℚ)]),
       ({ id := 32, name := "Videollamadas con familia / amigos", category := some "Tecnología y Digital" }, [(1 : ℚ)])]
      ((fun ts : List String => ts.map (fun _ => [(1 : ℚ)]))
        (((["hola"].map pyStripStr).filter (fun a => a ≠ "")).map
          (fun text => "query: " ++ text))) 3 ≠ [] :=
  (interest_suggestions_characterization (fun x => x) "m"
    (fun ts => ts.map (fun _ => [(1 : ℚ)])) [] ["hola"] 3 _
    (by decide) (by decide)
    (except_toOption_some _ _ (by decide))
    (by decide) (by decide)).2.1

theorem le_foldl_max (l : List (String × List ℚ)) (f : String × List ℚ → ℚ) :
    ∀ a : ℚ, a ≤ l.foldl (fun m lv => max m (f lv)) a := by
  induction l with
  | nil => intro a; exact le_refl a
  | cons p rest ih =>
    intro a
    exact le_trans (le_max_left a (f p)) (ih (max a (f p)))

theorem prep_fold_characterization (v : List ℚ) (pairs : List (String × List ℚ)) :
    ∀ (accl : Option String) (accs : ℚ),
      (pairs.foldl (fun acc lv =>
          if DomainAI._dot v lv.2 > acc.2 then (some lv.1, DomainAI._dot v lv.2) else acc)
        (accl, accs)).2 = pairs.foldl (fun m lv => max m (DomainAI._dot v lv.2)) accs
      ∧ (pairs.foldl (fun m lv => max m (DomainAI._dot v lv.2)) accs > accs →
          ∃ q, pairs.find? (fun lv =>
              DomainAI._dot v lv.2 = pairs.foldl (fun m lv => max m (DomainAI._dot v lv.2)) accs) = some q
            ∧ q ∈ pairs
            ∧ (pairs.foldl (fun acc lv =>
                if DomainAI._dot v lv.2 > acc.2 then (some lv.1, DomainAI._dot v lv.2) else acc)
              (accl, accs)).1 = some q.1)
      ∧ (¬ pairs.foldl (fun m lv => max m (DomainAI._dot v lv.2)) accs > accs →
          pairs.foldl (fun acc lv =>
              if DomainAI._dot v lv.2 > acc.2 then (some lv.1, DomainAI._dot v lv.2) else acc)
            (accl, accs) = (accl, accs)) := by
  induction pairs with
  | nil =>
    intro accl accs
    refine ⟨rfl, ?_, fun _ => rfl⟩
    intro h
    simp at h
  | cons p rest ih =>
    intro accl accs
    simp only [List.foldl_cons]
    have hstep : (if DomainAI._dot v p.2 > accs then (some p.1, DomainAI._dot v p.2)
        else (accl, accs)) =
        ((if DomainAI._dot v p.2 > accs then some p.1 else accl : Option String),
          max accs (DomainAI._dot v p.2)) := by
      rcases lt_or_ge accs (DomainAI._dot v p.2) with h | h
      · simp [h, max_eq_right h.le]
      · rw [if_neg (not_lt_of_ge h), if_neg (not_lt_of_ge h), max_eq_left h]
    rw [hstep]
    refine ⟨(ih _ _).1, ?_, ?_⟩
    · intro hgt
      by_cases hdM : DomainAI._dot v p.2 =
          rest.foldl (fun m lv => max m (DomainAI._dot v lv.2)) (max accs (DomainAI._dot v p.2))
      · have hdacc : accs < DomainAI._dot v p.2 := by
          rw [hdM]; exact hgt
        have hceq : decide (DomainAI._dot v p.2 =
            rest.foldl (fun m lv => max m (DomainAI._dot v lv.2))
              (max accs (DomainAI._dot v p.2))) = true := decide_eq_true hdM
        simp only [List.find?, hceq]
        refine ⟨p, rfl, List.mem_cons_self p rest, ?_⟩
        have hmaxd : max accs (DomainAI._dot v p.2) = DomainAI._dot v p.2 :=
          max_eq_right hdacc.le
        have hnogt : ¬ rest.foldl (fun m lv => max m (DomainAI._dot v lv.2))
            (max accs (DomainAI._dot v p.2)) > max accs (DomainAI._dot v p.2) := by
          intro hc
          rw [hmaxd] at hc hdM
          rw [← hdM] at hc
          exact lt_irrefl _ hc
        rw [(ih _ _).2.2 hnogt]
        simp [hdacc]
      · have hle : max accs (DomainAI._dot v p.2) ≤
            rest.foldl (fun m lv => max m (DomainAI._dot v lv.2))
              (max accs (DomainAI._dot v p.2)) := le_foldl_max rest _ _
        have hlt : max accs (DomainAI._dot v p.2) <
            rest.foldl (fun m lv => max m (DomainAI._dot v lv.2))
              (max accs (DomainAI._dot v p.2)) := by
          rcases lt_or_eq_of_le hle with h | h
          · exact h
          · exfalso
            rcases max_cases accs (DomainAI._dot v p.2) with ⟨he, _⟩ | ⟨he, _⟩
            · rw [he] at h hgt
              rw [← h] at hgt
              exact lt_irrefl _ hgt
            · rw [he] at h hdM
              exact hdM h
        have hceq : decide (DomainAI._dot v p.2 =
            rest.foldl (fun m lv => max m (DomainAI._dot v lv.2))
              (max accs (DomainAI._dot v p.2))) = false := decide_eq_false hdM
        simp only [List.find?, hceq]
        rcases (ih (if DomainAI._dot v p.2 > accs then some p.1 else accl)
            (max accs (DomainAI._dot v p.2))).2.1 hlt with ⟨q, hq1, hq2, hq3⟩
        exact ⟨q, hq1, List.mem_cons_of_mem p hq2, hq3⟩
    · intro hngt
      have hdle : DomainAI._dot v p.2 ≤ accs := by
        by_contra hc
        push_neg at hc
        apply hngt
        calc accs < DomainAI._dot v p.2 := hc
          _ ≤ max accs (DomainAI._dot v p.2) := le_max_right _ _
          _ ≤ _ := le_foldl_max rest _ _
      have hmaxa : max accs (DomainAI._dot v p.2) = accs := max_eq_left hdle
      rw [if_neg (not_lt_of_ge hdle), hmaxa]
      rw [hmaxa] at hngt
      exact (ih accl accs).2.2 hngt

/-- **C6**: preparation classification returns `None` when the answer is
    empty or whitespace-only, and `None` when the maximum dot product over
    all 6 reference-phrase vectors (2 phrases for each of the 3 levels,
    in table order) is below 0.25; otherwise it returns the level of the
    single best-scoring phrase — the maximum individual phrase match wins,
    scores are not averaged per level. -/
theorem classify_preparation_characterization
    (embed : List String → List (List ℚ)) (answer : Option String)
    (href : (embed (DomainAI.preparationRows.map (fun r => "passage: " ++ r.2))).length = 6) :
    (pyStripStr (answer.getD "") = "" →
        DomainAI._classify_preparation embed answer = Except.ok none)
    ∧ (∀ pairs, DomainAI._preparation_reference_vectors embed = Except.ok pairs →
        pairs.map Prod.fst = ["planificado", "planificado", "intermedio", "intermedio",
          "desorientado", "desorientado"])
    ∧ (∀ answer_vec tail pairs,
        pyStripStr (answer.getD "") ≠ "" →
        embed ["query: " ++ pyStripStr (answer.getD "")] = answer_vec :: tail →
        DomainAI._preparation_reference_vectors embed = Except.ok pairs →
        (DomainAI.specBestScore answer_vec pairs < 1 / 4 →
            DomainAI._classify_preparation embed answer = Except.ok none)
        ∧ (¬ DomainAI.specBestScore answer_vec pairs < 1 / 4 →
            DomainAI._classify_preparation embed answer =
              Except.ok (DomainAI.specBestLevel answer_vec pairs))) := by
  have hrows : DomainAI.preparationRows.length = 6 := by decide
  have hpairs_eq : ∀ pairs, DomainAI._preparation_reference_vectors embed = Except.ok pairs →
      pairs = (DomainAI.preparationRows.map Prod.fst).zip
        (embed (DomainAI.preparationRows.map (fun r => "passage: " ++ r.2))) := by
    intro pairs h
    unfold DomainAI._preparation_reference_vectors at h
    rw [if_neg (by rw [href, hrows]; exact fun hc => hc rfl)] at h
    exact (Except.ok.injEq _ _ ▸ h).symm
  refine ⟨?_, ?_, ?_⟩
  · intro h
    unfold DomainAI._classify_preparation
    rw [if_pos h]
  · intro pairs h
    rw [hpairs_eq pairs h]
    rw [List.map_fst_zip]
    · decide
    · rw [href]
      decide
  · intro answer_vec tail pairs htext hembed hpv
    have hchar := prep_fold_characterization answer_vec pairs none (-1)
    have hspecF : DomainAI.specBestScore answer_vec pairs =
        pairs.foldl (fun m lv => max m (DomainAI._dot answer_vec lv.2)) (-1) := by
      unfold DomainAI.specBestScore
      rw [List.foldl_map]
    have hbody : DomainAI._classify_preparation embed answer =
        (match (pairs.foldl (fun acc lv =>
            if DomainAI._dot answer_vec lv.2 > acc.2 then (some lv.1, DomainAI._dot answer_vec lv.2) else acc)
          ((none : Option String), (-1 : ℚ))).1 with
        | none => Except.ok none
        | some best_level =>
          if (pairs.foldl (fun acc lv =>
              if DomainAI._dot answer_vec lv.2 > acc.2 then (some lv.1, DomainAI._dot answer_vec lv.2) else acc)
            ((none : Option String), (-1 : ℚ))).2 < 1 / 4 then Except.ok none
          else DomainPreparation.validate_level (some best_level)) := by
      unfold DomainAI._classify_preparation
      rw [if_neg htext, hembed, hpv]
    constructor
    · intro hlow
      rw [hspecF] at hlow
      by_cases hgt : pairs.foldl (fun m lv => max m (DomainAI._dot answer_vec lv.2)) (-1) > -1
      · rcases hchar.2.1 hgt with ⟨q, _, _, hq3⟩
        rw [hbody, hq3]
        show (if (pairs.foldl (fun acc lv =>
            if DomainAI._dot answer_vec lv.2 > acc.2 then (some lv.1, DomainAI._dot answer_vec lv.2) else acc)
          ((none : Option String), (-1 : ℚ))).2 < 1 / 4 then Except.ok none
          else DomainPreparation.validate_level (some q.1)) = Except.ok none
        rw [hchar.1, if_pos hlow]
      · rw [hbody, hchar.2.2 hgt]
    · intro hhigh
      rw [hspecF] at hhigh
      have hgt : pairs.foldl (fun m lv => max m (DomainAI._dot answer_vec lv.2)) (-1) > -1 := by
        have : (1 : ℚ) / 4 ≤ pairs.foldl (fun m lv => max m (DomainAI._dot answer_vec lv.2)) (-1) :=
          not_lt.mp hhigh
        linarith
      rcases hchar.2.1 hgt with ⟨q, hq1, hq2, hq3⟩
      have hvalid : DomainPreparation.validate_level (some q.1) = Except.ok (some q.1) := by
        have hmem : q.1 ∈ pairs.map Prod.fst := List.mem_map_of_mem Prod.fst hq2
        rw [hpairs_eq pairs hpv] at hmem
        rw [List.map_fst_zip] at hmem
        · have hlist : DomainAI.preparationRows.map Prod.fst =
              ["planificado", "planificado", "intermedio", "intermedio",
               "desorientado", "desorientado"] := by decide
          rw [hlist] at hmem
          have hallowed : q.1 ∈ DomainPreparation.ALLOWED_LEVELS := by
            simp only [List.mem_cons, List.not_mem_nil, or_false] at hmem
            rcases hmem with h | h | h | h | h | h <;> rw [h] <;> decide
          unfold DomainPreparation.validate_level
          simp [hallowed]
        · rw [href]
          decide
      rw [hbody, hq3]
      show (if (pairs.foldl (fun acc lv =>
          if DomainAI._dot answer_vec lv.2 > acc.2 then (some lv.1, DomainAI._dot answer_vec lv.2) else acc)
        ((none : Option String), (-1 : ℚ))).2 < 1 / 4 then Except.ok none
        else DomainPreparation.validate_level (some q.1)) =
        Except.ok (DomainAI.specBestLevel answer_vec pairs)
      rw [hchar.1, if_neg hhigh, hvalid]
      unfold DomainAI.specBestLevel
      rw [hspecF, hq1]
      rfl

/-- **C6** witness: the characterization instantiated at the provider that
    embeds every text as the empty vector (all dot products 0 < 0.25), so
    classification yields `None`. -/
theorem classify_preparation_witness :
    DomainAI._classify_preparation (fun ts => ts.map (fun _ => ([] : List ℚ)))
      (some "hola") = Except.ok none :=
  ((classify_preparation_characterization (fun ts => ts.map (fun _ => ([] : List ℚ)))
      (some "hola") (by decide)).2.2 [] []
    ((DomainAI.preparationRows.map Prod.fst).zip
      ((DomainAI.preparationRows.map (fun r => "passage: " ++ r.2)).map (fun _ => ([] : List ℚ))))
    (by decide) rfl rfl).1
    (by
      have h0 : DomainAI.specBestScore ([] : List ℚ)
          ((DomainAI.preparationRows.map Prod.fst).zip
            ((DomainAI.preparationRows.map (fun r => "passage: " ++ r.2)).map
              (fun _ => ([] : List ℚ)))) = (0 : ℚ) := rfl
      rw [h0]
      exact div_pos zero_lt_one zero_lt_four)

theorem applyFold_pointwise (sha1hex : String → String) (model_id : String)
    (ups : List (CatalogEmbeddings.InterestDoc × List ℚ)) :
    ∀ store : List CatalogEmbeddings.InterestDoc,
      ups.foldl (fun st pv => CatalogEmbeddings.applySet st pv.1.docId pv.2
        (CatalogEmbeddings.docSignature sha1hex model_id pv.1)
        (CatalogEmbeddings.docPayload pv.1)) store =
      store.map (fun d => ups.foldl (fun dd pv =>
        if dd.docId = pv.1.docId then
          { dd with
            vector := some pv.2
            signature := some (CatalogEmbeddings.docSignature sha1hex model_id pv.1)
            text := some (CatalogEmbeddings.docPayload pv.1) }
        else dd) d) := by
  induction ups with
  | nil =>
    intro store
    simp
  | cons u rest ih =>
    intro store
    simp only [List.foldl_cons]
    rw [ih (CatalogEmbeddings.applySet store u.1.docId u.2
      (CatalogEmbeddings.docSignature sha1hex model_id u.1)
      (CatalogEmbeddings.docPayload u.1))]
    unfold CatalogEmbeddings.applySet
    rw [List.map_map]
    rfl

theorem pointFold_docId (sha1hex : String → String) (model_id : String)
    (ups : List (CatalogEmbeddings.InterestDoc × List ℚ))
    (d : CatalogEmbeddings.InterestDoc) :
    (ups.foldl (fun dd pv =>
      if dd.docId = pv.1.docId then
        { dd with
          vector := some pv.2
          signature := some (CatalogEmbeddings.docSignature sha1hex model_id pv.1)
          text := some (CatalogEmbeddings.docPayload pv.1) }
      else dd) d).docId = d.docId := by
  induction ups generalizing d with
  | nil => rfl
  | cons u rest ih =>
    simp only [List.foldl_cons]
    by_cases h : d.docId = u.1.docId
    · rw [if_pos h]
      rw [ih]
    · rw [if_neg h]
      exact ih d

theorem pointFold_no_match (sha1hex : String → String) (model_id : String)
    (ups : List (CatalogEmbeddings.InterestDoc × List ℚ))
    (d : CatalogEmbeddings.InterestDoc)
    (h : ∀ pv ∈ ups, pv.1.docId ≠ d.docId) :
    ups.foldl (fun dd pv =>
      if dd.docId = pv.1.docId then
        { dd with
          vector := some pv.2
          signature := some (CatalogEmbeddings.docSignature sha1hex model_id pv.1)
          text := some (CatalogEmbeddings.docPayload pv.1) }
      else dd) d = d := by
  induction ups with
  | nil => rfl
  | cons u rest ih =>
    simp only [List.foldl_cons]
    rw [if_neg (fun hc => h u (List.mem_cons_self u rest) (hc.symm))]
    exact ih (fun pv hpv => h pv (List.mem_cons_of_mem u hpv))

theorem pointFold_find (sha1hex : String → String) (model_id : String)
    (ups : List (CatalogEmbeddings.InterestDoc × List ℚ))
    (d : CatalogEmbeddings.InterestDoc)
    (hnodup : (ups.map (fun pv => pv.1.docId)).Nodup) :
    ups.foldl (fun dd pv =>
      if dd.docId = pv.1.docId then
        { dd with
          vector := some pv.2
          signature := some (CatalogEmbeddings.docSignature sha1hex model_id pv.1)
          text := some (CatalogEmbeddings.docPayload pv.1) }
      else dd) d =
    (match ups.find? (fun pv => pv.1.docId = d.docId) with
     | none => d
     | some pv =>
       { d with
           vector := some pv.2
           signature := some (CatalogEmbeddings.docSignature sha1hex model_id pv.1)
           text := some (CatalogEmbeddings.docPayload pv.1) }) := by
  induction ups with
  | nil => rfl
  | cons u rest ih =>
    simp only [List.foldl_cons, List.find?]
    by_cases h : u.1.docId = d.docId
    · have hceq : decide (u.1.docId = d.docId) = true := decide_eq_true h
      rw [hceq, if_pos h.symm]
      have hrest : ∀ pv ∈ rest, pv.1.docId ≠
          ({ d with
              vector := some u.2
              signature := some (CatalogEmbeddings.docSignature sha1hex model_id u.1)
              text := some (CatalogEmbeddings.docPayload u.1) } :
            CatalogEmbeddings.InterestDoc).docId := by
        intro pv hpv hc
        have : pv.1.docId = u.1.docId := by
          rw [hc, h]
        rcases List.nodup_cons.mp hnodup with ⟨hu, _⟩
        apply hu
        show u.1.docId ∈ List.map (fun pv => pv.1.docId) rest
        rw [← this]
        exact List.mem_map_of_mem (fun pv => pv.1.docId) hpv
      exact pointFold_no_match sha1hex model_id rest _ hrest
    · have hceq : decide (u.1.docId = d.docId) = false := decide_eq_false h
      rw [hceq, if_neg (fun hc => h hc.symm)]
      exact ih (List.nodup_cons.mp hnodup).2

theorem string_append_left_cancel {a b c : String} (h : a ++ b = a ++ c) : b = c := by
  have hd : a.data ++ b.data = a.data ++ c.data := congrArg String.data h
  have hbc := List.append_cancel_left hd
  cases b
  cases c
  exact congrArg String.mk hbc

theorem exists_zip_right {α β : Type} :
    ∀ (l1 : List α) (l2 : List β), l1.length = l2.length →
      ∀ a ∈ l1, ∃ b, (a, b) ∈ l1.zip l2 := by
  intro l1
  induction l1 with
  | nil =>
    intro l2 _ a ha
    exact absurd ha (List.not_mem_nil a)
  | cons x xs ih =>
    intro l2 hlen a ha
    cases l2 with
    | nil => simp at hlen
    | cons y ys =>
      rcases List.mem_cons.mp ha with rfl | ha
      · exact ⟨y, List.mem_cons_self _ _⟩
      · rcases ih ys (by simpa using hlen) a ha with ⟨b, hb⟩
        exact ⟨b, List.mem_cons_of_mem _ hb⟩

/-- **C7** (amended): a row whose stripped name is non-empty is selected
    for recomputation by `ensure_catalog_embeddings` iff `force` is set,
    or it has no usable stored vector, or its stored signature differs
    from the hash of the model id concatenated with the canonical passage
    text (rows with empty names are skipped even under `force`); the
    passage includes the interest's name, so renaming an interest changes
    the signature (for a collision-free hash); on success exactly the
    selected rows get a fresh vector, signature and passage text and every
    other row is untouched; and when the provider returns a number of
    vectors different from the number of pending rows the operation
    raises before performing any store write. -/
theorem refresh_ok_shape (sha1hex : String → String) (model_id : String)
    (embed : List String → List (List ℚ)) (force : Bool)
    (store : List CatalogEmbeddings.InterestDoc)
    (hlen : (embed ((store.filter (CatalogEmbeddings.rowPending sha1hex model_id force)).map
        CatalogEmbeddings.docPayload)).length =
      (store.filter (CatalogEmbeddings.rowPending sha1hex model_id force)).length)
    (hnodup : (store.map (fun d => d.docId)).Nodup) :
    ∃ f : CatalogEmbeddings.InterestDoc → List ℚ,
      CatalogEmbeddings.refreshEmbeddings sha1hex model_id embed force store =
        Except.ok (store.map (fun d =>
          if CatalogEmbeddings.rowPending sha1hex model_id force d = true then
            { d with
                vector := some (f d)
                signature := some (CatalogEmbeddings.docSignature sha1hex model_id d)
                text := some (CatalogEmbeddings.docPayload d) }
          else d))
      ∧ ∀ d ∈ store, CatalogEmbeddings.rowPending sha1hex model_id force d = true →
          f d ∈ embed ((store.filter (CatalogEmbeddings.rowPending sha1hex model_id force)).map
            CatalogEmbeddings.docPayload) := by
  unfold CatalogEmbeddings.refreshEmbeddings
  by_cases hst : store = []
  · refine ⟨fun _ => [], ?_, ?_⟩
    · rw [if_pos hst, hst]
      rfl
    · intro d hd
      rw [hst] at hd
      exact absurd hd (List.not_mem_nil d)
  · rw [if_neg hst]
    by_cases hp : store.filter (CatalogEmbeddings.rowPending sha1hex model_id force) = []
    · have hall : ∀ d ∈ store, CatalogEmbeddings.rowPending sha1hex model_id force d = false := by
        intro d hd
        by_contra hc
        have : d ∈ store.filter (CatalogEmbeddings.rowPending sha1hex model_id force) :=
          List.mem_filter.mpr ⟨hd, by simpa using hc⟩
        rw [hp] at this
        exact List.not_mem_nil d this
      rw [if_pos hp]
      refine ⟨fun _ => [], ?_, ?_⟩
      · congr 1
        have : store.map (fun d =>
            if CatalogEmbeddings.rowPending sha1hex model_id force d = true then
              { d with
                  vector := some []
                  signature := some (CatalogEmbeddings.docSignature sha1hex model_id d)
                  text := some (CatalogEmbeddings.docPayload d) }
            else d) = store.map (fun d => d) := by
          apply List.map_congr_left
          intro d hd
          rw [if_neg (by simp [hall d hd])]
        rw [this, List.map_id']
      · intro d hd hpd
        rw [hall d hd] at hpd
        exact absurd hpd (by simp)
    · rw [if_neg hp]
      rw [if_neg (not_not_intro hlen)]
      set pending := store.filter (CatalogEmbeddings.rowPending sha1hex model_id force) with hpend
      set vectors := embed (pending.map CatalogEmbeddings.docPayload) with hvec
      have hinj_store : ∀ a ∈ store, ∀ b ∈ store, a.docId = b.docId → a = b := by
        intro a ha b hb hab
        exact List.inj_on_of_nodup_map hnodup ha hb hab
      have hnodup_ups : ((pending.zip vectors).map (fun pv => pv.1.docId)).Nodup := by
        have h1 : (pending.zip vectors).map (fun pv => pv.1.docId) =
            ((pending.zip vectors).map Prod.fst).map (fun d => d.docId) := by
          rw [List.map_map]
          rfl
        rw [h1, List.map_fst_zip pending vectors (le_of_eq hlen.symm)]
        have hsub : pending.Sublist store := List.filter_sublist store
        exact (hsub.map (fun d => d.docId)).nodup hnodup
      refine ⟨fun d => match (pending.zip vectors).find? (fun pv => pv.1.docId = d.docId) with
        | some pv => pv.2
        | none => [], ?_, ?_⟩
      · rw [applyFold_pointwise]
        congr 1
        apply List.map_congr_left
        intro d hd
        simp only []
        rw [pointFold_find sha1hex model_id _ _ hnodup_ups]
        by_cases hpd : CatalogEmbeddings.rowPending sha1hex model_id force d = true
        · have hdp : d ∈ pending := List.mem_filter.mpr ⟨hd, hpd⟩
          rcases exists_zip_right pending vectors hlen.symm d hdp with ⟨vec, hvecmem⟩
          have hfind : ((pending.zip vectors).find? (fun pv => pv.1.docId = d.docId)).isSome := by
            rw [List.find?_isSome]
            exact ⟨(d, vec), hvecmem, by simp⟩
          rcases Option.isSome_iff_exists.mp hfind with ⟨pv, hpv⟩
          have hpvd : pv.1 = d := by
            have hmem1 : pv ∈ pending.zip vectors := List.mem_of_find?_eq_some hpv
            have hfst : pv.1 ∈ pending := (List.of_mem_zip hmem1).1
            have heq : pv.1.docId = d.docId := by
              have := List.find?_some hpv
              simpa using this
            exact hinj_store pv.1 (List.mem_of_mem_filter hfst) d hd heq
          rw [hpv, if_pos hpd]
          show ({ d with
              vector := some pv.2
              signature := some (CatalogEmbeddings.docSignature sha1hex model_id pv.1)
              text := some (CatalogEmbeddings.docPayload pv.1) } :
            CatalogEmbeddings.InterestDoc) =
            { d with
              vector := some pv.2
              signature := some (CatalogEmbeddings.docSignature sha1hex model_id d)
              text := some (CatalogEmbeddings.docPayload d) }
          rw [hpvd]
        · have hfind : ((pending.zip vectors).find? (fun pv => pv.1.docId = d.docId)) = none := by
            rw [List.find?_eq_none]
            intro pv hpv hc
            have hfst : pv.1 ∈ pending := (List.of_mem_zip hpv).1
            have heq : pv.1.docId = d.docId := by simpa using hc
            have : pv.1 = d := hinj_store pv.1 (List.mem_of_mem_filter hfst) d hd heq
            rw [this] at hfst
            exact hpd (List.mem_filter.mp hfst).2
          rw [hfind, if_neg hpd]
      · intro d hd hpd
        have hdp : d ∈ pending := List.mem_filter.mpr ⟨hd, hpd⟩
        rcases exists_zip_right pending vectors hlen.symm d hdp with ⟨vec, hvecmem⟩
        have hfind : ((pending.zip vectors).find? (fun pv => pv.1.docId = d.docId)).isSome := by
          rw [List.find?_isSome]
          exact ⟨(d, vec), hvecmem, by simp⟩
        rcases Option.isSome_iff_exists.mp hfind with ⟨pv, hpv⟩
        show (match (pending.zip vectors).find? (fun pv => pv.1.docId = d.docId) with
          | some pv => pv.2
          | none => ([] : List ℚ)) ∈ vectors
        rw [hpv]
        exact (List.of_mem_zip (List.mem_of_find?_eq_some hpv)).2

theorem refresh_mismatch (sha1hex : String → String) (model_id : String)
    (embed : List String → List (List ℚ)) (force : Bool)
    (store : List CatalogEmbeddings.InterestDoc)
    (hp : store.filter (CatalogEmbeddings.rowPending sha1hex model_id force) ≠ [])
    (hlen : (embed ((store.filter (CatalogEmbeddings.rowPending sha1hex model_id force)).map
        CatalogEmbeddings.docPayload)).length ≠
      (store.filter (CatalogEmbeddings.rowPending sha1hex model_id force)).length) :
    CatalogEmbeddings.refreshEmbeddings sha1hex model_id embed force store =
      Except.error "No se pudieron generar embeddings para el catálogo de intereses" := by
  unfold CatalogEmbeddings.refreshEmbeddings
  have hst : store ≠ [] := by
    intro hc
    rw [hc] at hp
    exact hp rfl
  rw [if_neg hst, if_neg hp, if_pos hlen]

/-- **C7** (amended): a streamed catalog row (after the
    `ensure_catalog_firestore()` seeding of missing base interests, which
    writes no embedding fields) whose stripped name is non-empty is
    selected for recomputation by `ensure_catalog_embeddings` iff `force`
    is set, or it has no usable stored vector, or its stored signature
    differs from the hash of the model id concatenated with the canonical
    passage text (rows with empty names are skipped even under `force`);
    the passage includes the interest's name, so renaming an interest
    changes the signature (for a collision-free hash); on success exactly
    the selected rows get a fresh vector, signature and passage text and
    every other row is untouched; and when the provider returns a number
    of vectors different from the number of pending rows the operation
    raises before performing any embedding-cache write. -/
theorem ensure_catalog_embeddings_characterization
    (sha1hex : String → String) (model_id : String)
    (embed : List String → List (List ℚ)) (force : Bool)
    (store : List CatalogEmbeddings.InterestDoc) :
    (∀ doc, CatalogEmbeddings.rowPending sha1hex model_id force doc = true ↔
        (pyStripStr (doc.name.getD "") ≠ "" ∧
          (force = true ∨ CatalogEmbeddings.hasVector doc = false ∨
            doc.signature ≠ some (sha1hex (model_id ++ ("||" ++ CatalogEmbeddings.docPayload doc))))))
    ∧ (∀ (c : Option String) (n1 n2 : String), Function.Injective sha1hex →
        pyStripStr n1 ≠ pyStripStr n2 →
        CatalogEmbeddings._signature sha1hex model_id (CatalogEmbeddings._passage_payload n1 c) ≠
          CatalogEmbeddings._signature sha1hex model_id (CatalogEmbeddings._passage_payload n2 c))
    ∧ ((embed (((CatalogEmbeddings.ensure_catalog_firestore store).filter
          (CatalogEmbeddings.rowPending sha1hex model_id force)).map
          CatalogEmbeddings.docPayload)).length =
        ((CatalogEmbeddings.ensure_catalog_firestore store).filter
          (CatalogEmbeddings.rowPending sha1hex model_id force)).length →
        ((CatalogEmbeddings.ensure_catalog_firestore store).map (fun d => d.docId)).Nodup →
        ∃ f : CatalogEmbeddings.InterestDoc → List ℚ,
          CatalogEmbeddings.ensure_catalog_embeddings sha1hex model_id embed force store =
            Except.ok ((CatalogEmbeddings.ensure_catalog_firestore store).map (fun d =>
              if CatalogEmbeddings.rowPending sha1hex model_id force d = true then
                { d with
                    vector := some (f d)
                    signature := some (CatalogEmbeddings.docSignature sha1hex model_id d)
                    text := some (CatalogEmbeddings.docPayload d) }
              else d)))
    ∧ ((CatalogEmbeddings.ensure_catalog_firestore store).filter
          (CatalogEmbeddings.rowPending sha1hex model_id force) ≠ [] →
        (embed (((CatalogEmbeddings.ensure_catalog_firestore store).filter
          (CatalogEmbeddings.rowPending sha1hex model_id force)).map
          CatalogEmbeddings.docPayload)).length ≠
          ((CatalogEmbeddings.ensure_catalog_firestore store).filter
            (CatalogEmbeddings.rowPending sha1hex model_id force)).length →
        CatalogEmbeddings.ensure_catalog_embeddings sha1hex model_id embed force store =
          Except.error "No se pudieron generar embeddings para el catálogo de intereses") := by
  refine ⟨?_, ?_, ?_, ?_⟩
  · intro doc
    unfold CatalogEmbeddings.rowPending
    constructor
    · intro h
      rcases Bool.and_eq_true .. ▸ h with ⟨h1, h2⟩
      refine ⟨by simpa using h1, ?_⟩
      rcases Bool.or_eq_true .. ▸ h2 with h3 | h4
      · rcases Bool.or_eq_true .. ▸ h3 with h5 | h6
        · exact Or.inl h5
        · exact Or.inr (Or.inl (by simpa using h6))
      · refine Or.inr (Or.inr ?_)
        intro hc
        have hc2 : doc.signature = some (CatalogEmbeddings.docSignature sha1hex model_id doc) := hc
        simp [hc2] at h4
    · intro ⟨h1, h2⟩
      refine Bool.and_eq_true .. ▸ ⟨by simpa [CatalogEmbeddings.docName] using h1, ?_⟩
      rcases h2 with h3 | h3 | h3
      · exact Bool.or_eq_true .. ▸ Or.inl (Bool.or_eq_true .. ▸ Or.inl h3)
      · exact Bool.or_eq_true .. ▸ Or.inl (Bool.or_eq_true .. ▸ Or.inr (by simp [h3]))
      · refine Bool.or_eq_true .. ▸ Or.inr ?_
        simpa [CatalogEmbeddings.docSignature, CatalogEmbeddings._signature] using h3
  · intro c n1 n2 hinj hne hc
    unfold CatalogEmbeddings._signature at hc
    have hp := hinj hc
    have hp2 := string_append_left_cancel (string_append_left_cancel hp)
    apply hne
    cases c with
    | none =>
      have hp3 : "passage: " ++ pyStripStr n1 = "passage: " ++ pyStripStr n2 := hp2
      exact string_append_left_cancel hp3
    | some cv =>
      by_cases hcv : cv = ""
      · subst hcv
        have hp3 : "passage: " ++ pyStripStr n1 = "passage: " ++ pyStripStr n2 := by
          simpa [CatalogEmbeddings._passage_payload] using hp2
        exact string_append_left_cancel hp3
      · have hp3 : "passage: " ++ (pyStripStr cv ++ (" — " ++ pyStripStr n1)) =
            "passage: " ++ (pyStripStr cv ++ (" — " ++ pyStripStr n2)) := by
          simpa [CatalogEmbeddings._passage_payload, hcv] using hp2
        exact string_append_left_cancel (string_append_left_cancel (string_append_left_cancel hp3))
  · intro hlen hnodup
    rcases refresh_ok_shape sha1hex model_id embed force
      (CatalogEmbeddings.ensure_catalog_firestore store) hlen hnodup with ⟨f, hok, -⟩
    exact ⟨f, hok⟩
  · intro hp hlen
    exact refresh_mismatch sha1hex model_id embed force
      (CatalogEmbeddings.ensure_catalog_firestore store) hp hlen

/-- **C7** counterexample: a row whose stored name is the empty string is
    never selected for recomputation — even under `force`, with no stored
    vector and a cooperative provider, the refresh leaves it untouched
    (still vectorless), where the claim's unrestricted iff demands a
    recomputation. -/
theorem ensure_skips_empty_name_row :
    (CatalogEmbeddings.ensure_catalog_embeddings (fun x => x) "m"
        (fun ts => ts.map (fun _ => [(1 : ℚ)])) true
        [⟨"50", some 50, some "", none, none, none, none⟩]).toOption.map
      (fun st => st.find? (fun d => d.docId = "50")) =
      some (some ⟨"50", some 50, some "", none, none, none, none⟩) := by decide

/-- **C7** witness: the characterization instantiated at a store with one
    non-base (vectorless) row and a one-vector-per-text provider, under
    `force`. -/
theorem ensure_catalog_embeddings_witness :
    ∃ f : CatalogEmbeddings.InterestDoc → List ℚ,
      CatalogEmbeddings.ensure_catalog_embeddings (fun x => x) "m"
        (fun ts => ts.map (fun _ => [(1 : ℚ)])) true
        [⟨"1", some 1, some "Caminar", some "Física", none, none, none⟩] =
      Except.ok ((CatalogEmbeddings.ensure_catalog_firestore
          [⟨"1", some 1, some "Caminar", some "Física", none, none, none⟩]).map
        (fun d =>
          if CatalogEmbeddings.rowPending (fun x => x) "m" true d = true then
            { d with
                vector := some (f d)
                signature := some (CatalogEmbeddings.docSignature (fun x => x) "m" d)
                text := some (CatalogEmbeddings.docPayload d) }
          else d)) :=
  (ensure_catalog_embeddings_characterization (fun x => x) "m"
    (fun ts => ts.map (fun _ => [(1 : ℚ)])) true
    [⟨"1", some 1, some "Caminar", some "Física", none, none, none⟩]).2.2.1
    (by decide) (by decide)

theorem dictGet_eq_none_iff {β : Type} (w : List (String × β)) (k : String) :
    dictGet w k = none ↔ ¬ k ∈ w.map Prod.fst := by
  induction w with
  | nil => simp [dictGet]
  | cons p rest ih =>
    unfold dictGet
    by_cases h : k = p.1
    · simp [h]
    · simp only [List.map_cons, List.mem_cons]
      rw [if_neg h, ih]
      constructor
      · intro hn hc
        rcases hc with hc | hc
        · exact h hc
        · exact hn hc
      · intro hn hc
        exact hn (Or.inr hc)

theorem dictGet_cons {β : Type} (p : String × β) (rest : List (String × β)) (key : String) :
    dictGet (p :: rest) key = if key = p.1 then some p.2 else dictGet rest key := rfl

theorem dictGet_map_add (w : List (String × ℚ)) (k : String) (v : ℚ) :
    dictGet (w.map (fun p => if p.1 = k then (p.1, p.2 + v) else p)) k =
      (dictGet w k).map (fun x => x + v) := by
  induction w with
  | nil => rfl
  | cons p rest ih =>
    simp only [List.map_cons]
    by_cases hk : p.1 = k
    · rw [if_pos hk, dictGet_cons, dictGet_cons, if_pos hk.symm, if_pos hk.symm]
      rfl
    · rw [if_neg hk, dictGet_cons, dictGet_cons,
        if_neg (fun hc : k = p.1 => hk hc.symm), if_neg (fun hc : k = p.1 => hk hc.symm)]
      exact ih

theorem dictGet_map_add_other (w : List (String × ℚ)) (k : String) (v : ℚ)
    (k' : String) (h : k' ≠ k) :
    dictGet (w.map (fun p => if p.1 = k then (p.1, p.2 + v) else p)) k' = dictGet w k' := by
  induction w with
  | nil => rfl
  | cons p rest ih =>
    simp only [List.map_cons]
    by_cases hk : p.1 = k
    · have hk2 : ¬ k' = p.1 := fun hc => h (hc.trans hk)
      rw [if_pos hk, dictGet_cons, dictGet_cons, if_neg hk2, if_neg hk2]
      exact ih
    · rw [if_neg hk, dictGet_cons, dictGet_cons]
      by_cases hk2 : k' = p.1
      · rw [if_pos hk2, if_pos hk2]
      · rw [if_neg hk2, if_neg hk2]
        exact ih

theorem dictGet_append_single (w : List (String × ℚ)) (k : String) (v : ℚ)
    (h : dictGet w k = none) :
    dictGet (w ++ [(k, v)]) k = some v := by
  induction w with
  | nil => simp [dictGet]
  | cons p rest ih =>
    rw [dictGet_cons] at h
    rw [List.cons_append, dictGet_cons]
    by_cases hk : k = p.1
    · rw [if_pos hk] at h
      simp at h
    · rw [if_neg hk] at h ⊢
      exact ih h

theorem dictGet_append_single_other (w : List (String × ℚ)) (k : String) (v : ℚ)
    (k' : String) (h : k' ≠ k) :
    dictGet (w ++ [(k, v)]) k' = dictGet w k' := by
  induction w with
  | nil =>
    show dictGet [(k, v)] k' = none
    rw [dictGet_cons, if_neg h]
    rfl
  | cons p rest ih =>
    rw [List.cons_append, dictGet_cons, dictGet_cons]
    by_cases hk : k' = p.1
    · rw [if_pos hk, if_pos hk]
    · rw [if_neg hk, if_neg hk]
      exact ih

theorem dictGet_assocAdd_self (w : List (String × ℚ)) (k : String) (v : ℚ) :
    dictGet (CategoryPreferences.assocAdd w k v) k = some ((dictGet w k).getD 0 + v) := by
  unfold CategoryPreferences.assocAdd
  by_cases h : (dictGet w k).isSome
  · rw [if_pos h, dictGet_map_add]
    rcases Option.isSome_iff_exists.mp h with ⟨x, hx⟩
    rw [hx]
    rfl
  · rw [if_neg h]
    have hnone : dictGet w k = none := Option.not_isSome_iff_eq_none.mp h
    rw [dictGet_append_single w k v hnone, hnone]
    simp

theorem dictGet_assocAdd_other (w : List (String × ℚ)) (k : String) (v : ℚ)
    (k' : String) (h : k' ≠ k) :
    dictGet (CategoryPreferences.assocAdd w k v) k' = dictGet w k' := by
  unfold CategoryPreferences.assocAdd
  by_cases hp : (dictGet w k).isSome
  · rw [if_pos hp]
    exact dictGet_map_add_other w k v k' h
  · rw [if_neg hp]
    exact dictGet_append_single_other w k v k' h

theorem assocAdd_keys_nodup (w : List (String × ℚ)) (k : String) (v : ℚ)
    (h : (w.map Prod.fst).Nodup) :
    ((CategoryPreferences.assocAdd w k v).map Prod.fst).Nodup := by
  unfold CategoryPreferences.assocAdd
  by_cases hp : (dictGet w k).isSome
  · rw [if_pos hp]
    have hkeys : (w.map (fun p => if p.1 = k then (p.1, p.2 + v) else p)).map Prod.fst =
        w.map Prod.fst := by
      rw [List.map_map]
      apply List.map_congr_left
      intro p _
      by_cases hk : p.1 = k
      · simp [hk]
      · simp [hk]
    rw [hkeys]
    exact h
  · rw [if_neg hp]
    have hnone : dictGet w k = none := Option.not_isSome_iff_eq_none.mp hp
    have hk : ¬ k ∈ w.map Prod.fst := (dictGet_eq_none_iff w k).mp hnone
    rw [List.map_append, List.nodup_append]
    refine ⟨h, by simp, ?_⟩
    intro a ha hc
    have hak : a = k := by simpa using hc
    rw [hak] at ha
    exact hk ha

theorem applyWeights_cons (tf : ℚ → ℚ) (st : List (String × ℚ) × List (String × String))
    (tc : String × ℚ) (rest : List (String × ℚ)) (nm : List (String × String)) :
    CategoryPreferences._apply_weights tf st (tc :: rest) nm =
      CategoryPreferences._apply_weights tf
        (if tc.2 ≤ 0 then st
         else if tf tc.2 = 0 then st
         else
           (CategoryPreferences.assocAdd st.1 tc.1 (tf tc.2),
            if dictGet st.2 tc.1 = none ∧ (dictGet nm tc.1).isSome then
              st.2 ++ [(tc.1, (dictGet nm tc.1).getD "")]
            else st.2)) rest nm := rfl

theorem applyWeights_lookup_not_mem (tf : ℚ → ℚ) (counts : List (String × ℚ))
    (nm : List (String × String)) (token : String)
    (h : ¬ token ∈ counts.map Prod.fst) :
    ∀ st, dictGet (CategoryPreferences._apply_weights tf st counts nm).1 token =
      dictGet st.1 token := by
  induction counts with
  | nil => intro st; rfl
  | cons tc rest ih =>
    intro st
    have hne : token ≠ tc.1 := by
      intro hc
      exact h (by rw [hc]; exact List.mem_map_of_mem Prod.fst (List.mem_cons_self _ _))
    have hrest : ¬ token ∈ rest.map Prod.fst := by
      intro hc
      exact h (by simpa using Or.inr hc)
    rw [applyWeights_cons]
    by_cases hc1 : tc.2 ≤ 0
    · rw [if_pos hc1]
      exact ih hrest st
    · rw [if_neg hc1]
      by_cases hc2 : tf tc.2 = 0
      · rw [if_pos hc2]
        exact ih hrest st
      · rw [if_neg hc2]
        rw [ih hrest _]
        exact dictGet_assocAdd_other st.1 tc.1 (tf tc.2) token hne

theorem applyWeights_lookup (tf : ℚ → ℚ) (counts : List (String × ℚ))
    (nm : List (String × String)) (token : String)
    (hn : (counts.map Prod.fst).Nodup) :
    ∀ st, dictGet (CategoryPreferences._apply_weights tf st counts nm).1 token =
      (match dictGet counts token with
       | some c =>
         if 0 < c ∧ tf c ≠ 0 then some ((dictGet st.1 token).getD 0 + tf c)
         else dictGet st.1 token
       | none => dictGet st.1 token) := by
  induction counts with
  | nil => intro st; rfl
  | cons tc rest ih =>
    intro st
    have hn2 : (tc.1 :: rest.map Prod.fst).Nodup := by simpa using hn
    rcases List.nodup_cons.mp hn2 with ⟨htc, hrest⟩
    rw [applyWeights_cons, dictGet_cons]
    by_cases hk : token = tc.1
    · have hnotmem : ¬ token ∈ rest.map Prod.fst := by
        rw [hk]
        exact htc
      rw [if_pos hk, applyWeights_lookup_not_mem tf rest nm token hnotmem]
      by_cases hc1 : tc.2 ≤ 0
      · rw [if_pos hc1]
        show dictGet st.1 token =
          if 0 < tc.2 ∧ tf tc.2 ≠ 0 then some ((dictGet st.1 token).getD 0 + tf tc.2)
          else dictGet st.1 token
        rw [if_neg (fun hcon => absurd hcon.1 (not_lt.mpr hc1))]
      · rw [if_neg hc1]
        by_cases hc2 : tf tc.2 = 0
        · rw [if_pos hc2]
          show dictGet st.1 token =
            if 0 < tc.2 ∧ tf tc.2 ≠ 0 then some ((dictGet st.1 token).getD 0 + tf tc.2)
            else dictGet st.1 token
          rw [if_neg (fun hcon => hcon.2 hc2)]
        · rw [if_neg hc2]
          show dictGet (CategoryPreferences.assocAdd st.1 tc.1 (tf tc.2)) token =
            if 0 < tc.2 ∧ tf tc.2 ≠ 0 then some ((dictGet st.1 token).getD 0 + tf tc.2)
            else dictGet st.1 token
          rw [if_pos ⟨lt_of_not_ge hc1, hc2⟩, hk, dictGet_assocAdd_self]
    · rw [if_neg hk]
      by_cases hc1 : tc.2 ≤ 0
      · rw [if_pos hc1, ih hrest]
      · rw [if_neg hc1]
        by_cases hc2 : tf tc.2 = 0
        · rw [if_pos hc2, ih hrest]
        · rw [if_neg hc2, ih hrest]
          rcases hdr : dictGet rest token with _ | c
          · show dictGet (CategoryPreferences.assocAdd st.1 tc.1 (tf tc.2)) token =
              dictGet st.1 token
            exact dictGet_assocAdd_other st.1 tc.1 (tf tc.2) token hk
          · show (if 0 < c ∧ tf c ≠ 0 then
                some ((dictGet (CategoryPreferences.assocAdd st.1 tc.1 (tf tc.2)) token).getD 0 + tf c)
              else dictGet (CategoryPreferences.assocAdd st.1 tc.1 (tf tc.2)) token) =
              (if 0 < c ∧ tf c ≠ 0 then some ((dictGet st.1 token).getD 0 + tf c)
              else dictGet st.1 token)
            rw [dictGet_assocAdd_other st.1 tc.1 (tf tc.2) token hk]

theorem applyWeights_keys_nodup (tf : ℚ → ℚ) (counts : List (String × ℚ))
    (nm : List (String × String)) :
    ∀ st, (st.1.map Prod.fst).Nodup →
      ((CategoryPreferences._apply_weights tf st counts nm).1.map Prod.fst).Nodup := by
  induction counts with
  | nil => intro st h; exact h
  | cons tc rest ih =>
    intro st h
    rw [applyWeights_cons]
    by_cases hc1 : tc.2 ≤ 0
    · rw [if_pos hc1]
      exact ih st h
    · rw [if_neg hc1]
      by_cases hc2 : tf tc.2 = 0
      · rw [if_pos hc2]
        exact ih st h
      · rw [if_neg hc2]
        exact ih _ (assocAdd_keys_nodup st.1 tc.1 (tf tc.2) h)

theorem dictGet_filter_round (w : List (String × ℚ)) (token : String)
    (hn : (w.map Prod.fst).Nodup) :
    dictGet ((w.filter (fun p => |p.2| ≥ 1 / 4)).map (fun p => (p.1, DomainAI.round3 p.2))) token =
      (match dictGet w token with
       | some v => if |v| ≥ 1 / 4 then some (DomainAI.round3 v) else none
       | none => none) := by
  induction w with
  | nil => rfl
  | cons p rest ih =>
    have hn2 : (p.1 :: rest.map Prod.fst).Nodup := by simpa using hn
    rcases List.nodup_cons.mp hn2 with ⟨hp, hrest⟩
    rw [dictGet_cons]
    by_cases hk : token = p.1
    · rw [if_pos hk]
      by_cases hv : |p.2| ≥ 1 / 4
      · rw [List.filter_cons_of_pos (by simpa using hv), List.map_cons, dictGet_cons, if_pos hk]
        show some (DomainAI.round3 p.2) =
          if |p.2| ≥ 1 / 4 then some (DomainAI.round3 p.2) else none
        rw [if_pos hv]
      · rw [List.filter_cons_of_neg (by simpa using hv)]
        have hnone : dictGet ((rest.filter (fun p => |p.2| ≥ 1 / 4)).map
            (fun p => (p.1, DomainAI.round3 p.2))) token = none := by
          rw [dictGet_eq_none_iff]
          intro hc
          apply hp
          rw [← hk]
          rcases List.mem_map.mp hc with ⟨q, hq, rfl⟩
          rcases List.mem_map.mp hq with ⟨r, hr, rfl⟩
          show r.1 ∈ rest.map Prod.fst
          exact List.mem_map_of_mem Prod.fst (List.mem_of_mem_filter hr)
        rw [hnone]
        show (none : Option ℚ) = if |p.2| ≥ 1 / 4 then some (DomainAI.round3 p.2) else none
        rw [if_neg hv]
    · rw [if_neg hk]
      by_cases hv : |p.2| ≥ 1 / 4
      · rw [List.filter_cons_of_pos (by simpa using hv), List.map_cons, dictGet_cons,
          if_neg hk, ih hrest]
      · rw [List.filter_cons_of_neg (by simpa using hv), ih hrest]

theorem stage_facts (counts : List (String × ℚ)) (tf : ℚ → ℚ) (token : String) (o : Option ℚ) :
    ((match dictGet counts token with
      | some c => if 0 < c ∧ tf c ≠ 0 then some (o.getD 0 + tf c) else o
      | none => o) : Option ℚ).getD 0 =
      o.getD 0 + CategoryPreferences.claimContribution counts tf token
    ∧ ((match dictGet counts token with
        | some c => if 0 < c ∧ tf c ≠ 0 then some (o.getD 0 + tf c) else o
        | none => o) = none →
        o = none ∧ CategoryPreferences.claimContribution counts tf token = 0) := by
  unfold CategoryPreferences.claimContribution
  rcases hdg : dictGet counts token with _ | c
  · refine ⟨?_, fun h => ⟨h, rfl⟩⟩
    show o.getD 0 = o.getD 0 + 0
    rw [add_zero]
  · by_cases hc : 0 < c ∧ tf c ≠ 0
    · constructor
      · show (if 0 < c ∧ tf c ≠ 0 then some (o.getD 0 + tf c) else o).getD 0 =
          o.getD 0 + if 0 < c then tf c else 0
        rw [if_pos hc, if_pos hc.1]
        rfl
      · intro h
        have h2 : (if 0 < c ∧ tf c ≠ 0 then some (o.getD 0 + tf c) else o) = none := h
        rw [if_pos hc] at h2
        simp at h2
    · constructor
      · show (if 0 < c ∧ tf c ≠ 0 then some (o.getD 0 + tf c) else o).getD 0 =
          o.getD 0 + if 0 < c then tf c else 0
        rw [if_neg hc]
        by_cases h0 : 0 < c
        · have h1 : tf c = 0 := by
            by_contra hne
            exact hc ⟨h0, hne⟩
          rw [if_pos h0, h1, add_zero]
        · rw [if_neg h0, add_zero]
      · intro h
        have h2 : (if 0 < c ∧ tf c ≠ 0 then some (o.getD 0 + tf c) else o) = none := h
        rw [if_neg hc] at h2
        refine ⟨h2, ?_⟩
        show (if 0 < c then tf c else 0) = 0
        by_cases h0 : 0 < c
        · have h1 : tf c = 0 := by
            by_contra hne
            exact hc ⟨h0, hne⟩
          rw [if_pos h0, h1]
        · rw [if_neg h0]

theorem rating_adjustment_ne_zero (r : Int) :
    CategoryPreferences._rating_weight_adjustment r ≠ 0 := by
  unfold CategoryPreferences._rating_weight_adjustment
  split_ifs <;> norm_num

theorem ratingDeltas_cons_ss (t : String) (r : Int)
    (rest : List (Option String × Option Int)) (token : String) :
    CategoryPreferences.ratingDeltas token ((some t, some r) :: rest) =
      (if t = token then [CategoryPreferences._rating_weight_adjustment r] else []) ++
        CategoryPreferences.ratingDeltas token rest := rfl

theorem ratingDeltas_cons_n1 (ropt : Option Int)
    (rest : List (Option String × Option Int)) (token : String) :
    CategoryPreferences.ratingDeltas token ((none, ropt) :: rest) =
      CategoryPreferences.ratingDeltas token rest := by
  rcases ropt with _ | r <;> rfl

theorem ratingDeltas_cons_sn (t : String)
    (rest : List (Option String × Option Int)) (token : String) :
    CategoryPreferences.ratingDeltas token ((some t, none) :: rest) =
      CategoryPreferences.ratingDeltas token rest := rfl

theorem history_feedback_fold (records : List (Option String × Option Int)) (token : String) :
    ∀ w : List (String × ℚ),
      dictGet (records.foldl
        (fun w rec =>
          match rec.2 with
          | none => w
          | some rating =>
            match rec.1 with
            | none => w
            | some t =>
              if CategoryPreferences._rating_weight_adjustment rating = 0 then w
              else CategoryPreferences.assocAdd w t
                (CategoryPreferences._rating_weight_adjustment rating)) w) token =
      (if CategoryPreferences.ratingDeltas token records = [] then dictGet w token
       else some ((dictGet w token).getD 0 +
         (CategoryPreferences.ratingDeltas token records).sum)) := by
  induction records with
  | nil => intro w; rfl
  | cons rec rest ih =>
    intro w
    rcases rec with ⟨topt, ropt⟩
    rcases ropt with _ | r
    · rcases topt with _ | t
      · rw [List.foldl_cons]
        show dictGet (rest.foldl _ w) token = _
        rw [ih w, ratingDeltas_cons_n1]
      · rw [List.foldl_cons]
        show dictGet (rest.foldl _ w) token = _
        rw [ih w, ratingDeltas_cons_sn]
    · rcases topt with _ | t
      · rw [List.foldl_cons]
        show dictGet (rest.foldl _ w) token = _
        rw [ih w, ratingDeltas_cons_n1]
      · rw [List.foldl_cons]
        show dictGet (rest.foldl _
          (if CategoryPreferences._rating_weight_adjustment r = 0 then w
           else CategoryPreferences.assocAdd w t
             (CategoryPreferences._rating_weight_adjustment r))) token = _
        rw [if_neg (rating_adjustment_ne_zero r), ratingDeltas_cons_ss]
        by_cases hk : t = token
        · rw [if_pos hk, hk,
            ih (CategoryPreferences.assocAdd w token
              (CategoryPreferences._rating_weight_adjustment r)),
            dictGet_assocAdd_self, List.singleton_append]
          by_cases hrest : CategoryPreferences.ratingDeltas token rest = []
          · rw [if_pos hrest, hrest]
            rw [if_neg (by simp :
              ¬ (CategoryPreferences._rating_weight_adjustment r ::
                ([] : List ℚ)) = [])]
            simp
          · rw [if_neg hrest, if_neg (by simp :
              ¬ (CategoryPreferences._rating_weight_adjustment r ::
                CategoryPreferences.ratingDeltas token rest) = [])]
            simp only [Option.getD_some, List.sum_cons]
            congr 1
            ring
        · rw [if_neg hk, List.nil_append,
            ih (CategoryPreferences.assocAdd w t
              (CategoryPreferences._rating_weight_adjustment r)),
            dictGet_assocAdd_other w t (CategoryPreferences._rating_weight_adjustment r) token
              (fun hc => hk hc.symm)]

theorem applyWeights_lookup_opt (tf : ℚ → ℚ) (counts : List (String × ℚ))
    (nm : List (String × String)) (token : String)
    (hn : (counts.map Prod.fst).Nodup)
    (st : List (String × ℚ) × List (String × String)) :
    dictGet (CategoryPreferences._apply_weights tf st counts nm).1 token =
      CategoryPreferences.stageOpt counts tf token (dictGet st.1 token) := by
  rw [applyWeights_lookup tf counts nm token hn st]
  rfl

theorem stageOpt_getD (counts : List (String × ℚ)) (tf : ℚ → ℚ)
    (token : String) (o : Option ℚ) :
    (CategoryPreferences.stageOpt counts tf token o).getD 0 =
      o.getD 0 + CategoryPreferences.claimContribution counts tf token :=
  (stage_facts counts tf token o).1

theorem stageOpt_none (counts : List (String × ℚ)) (tf : ℚ → ℚ)
    (token : String) (o : Option ℚ) :
    CategoryPreferences.stageOpt counts tf token o = none →
      o = none ∧ CategoryPreferences.claimContribution counts tf token = 0 :=
  (stage_facts counts tf token o).2

theorem claimContribution_neg (counts : List (String × ℚ)) (tf : ℚ → ℚ) (token : String) :
    CategoryPreferences.claimContribution counts (fun c => -(tf c)) token =
      -(CategoryPreferences.claimContribution counts tf token) := by
  unfold CategoryPreferences.claimContribution
  cases hdg : dictGet counts token with
  | none =>
    show (0 : ℚ) = -0
    rw [neg_zero]
  | some c =>
    show (if 0 < c then -(tf c) else 0) = -(if 0 < c then tf c else 0)
    by_cases h : 0 < c
    · rw [if_pos h, if_pos h]
    · rw [if_neg h, if_neg h, neg_zero]

theorem roundHalfEven_ge_floor (x : ℚ) : ⌊x⌋ ≤ DomainAI.roundHalfEven x := by
  unfold DomainAI.roundHalfEven
  split_ifs <;> omega

theorem round3_pos (x : ℚ) (h : 3 ≤ x) : 0 < DomainAI.round3 x := by
  unfold DomainAI.round3
  have h1 : ((3000 : Int) : ℚ) ≤ x * 1000 := by push_cast; linarith
  have h2 : (3000 : Int) ≤ ⌊x * 1000⌋ := Int.le_floor.mpr h1
  have h3 : (0 : Int) < DomainAI.roundHalfEven (x * 1000) :=
    lt_of_lt_of_le (by norm_num) (le_trans h2 (roundHalfEven_ge_floor (x * 1000)))
  have h4 : (0 : ℚ) < (DomainAI.roundHalfEven (x * 1000) : ℚ) := by exact_mod_cast h3
  exact div_pos h4 (by norm_num)

theorem stage_tower (ln : ℚ → ℚ) (fav hist rwts pen : List (String × ℚ)) (token : String) :
    (match CategoryPreferences.stageOpt pen
        (fun count => -(CategoryPreferences._penalty_weight ln count)) token
        (CategoryPreferences.stageOpt rwts (fun value => value) token
          (CategoryPreferences.stageOpt hist (CategoryPreferences._history_weight ln) token
            (CategoryPreferences.stageOpt fav (CategoryPreferences._favorite_weight ln) token
              none))) with
     | some v => if |v| ≥ 1 / 4 then some (DomainAI.round3 v) else none
     | none => (none : Option ℚ)) =
    (if |CategoryPreferences.claimTotal ln fav hist rwts pen token| ≥ 1 / 4
     then some (DomainAI.round3 (CategoryPreferences.claimTotal ln fav hist rwts pen token))
     else none) := by
  rcases hO : CategoryPreferences.stageOpt pen
      (fun count => -(CategoryPreferences._penalty_weight ln count)) token
      (CategoryPreferences.stageOpt rwts (fun value => value) token
        (CategoryPreferences.stageOpt hist (CategoryPreferences._history_weight ln) token
          (CategoryPreferences.stageOpt fav (CategoryPreferences._favorite_weight ln) token
            none))) with _ | v
  · rcases stageOpt_none _ _ _ _ hO with ⟨h3, hc4⟩
    rcases stageOpt_none _ _ _ _ h3 with ⟨h2, hc3⟩
    rcases stageOpt_none _ _ _ _ h2 with ⟨h1, hc2⟩
    rcases stageOpt_none _ _ _ _ h1 with ⟨-, hc1⟩
    rw [claimContribution_neg pen (CategoryPreferences._penalty_weight ln) token] at hc4
    have hc4p : CategoryPreferences.claimContribution pen
        (CategoryPreferences._penalty_weight ln) token = 0 := neg_eq_zero.mp hc4
    have hT : CategoryPreferences.claimTotal ln fav hist rwts pen token = 0 := by
      unfold CategoryPreferences.claimTotal
      rw [hc1, hc2, hc3, hc4p]
      norm_num
    rw [hT]
    rw [if_neg (by norm_num : ¬ |(0 : ℚ)| ≥ 1 / 4)]
  · have hgd := congrArg (fun o : Option ℚ => o.getD 0) hO
    simp only at hgd
    rw [stageOpt_getD, stageOpt_getD, stageOpt_getD, stageOpt_getD,
      claimContribution_neg pen (CategoryPreferences._penalty_weight ln) token] at hgd
    simp only [Option.getD_none, Option.getD_some] at hgd
    have hv : v = CategoryPreferences.claimTotal ln fav hist rwts pen token := by
      rw [← hgd]
      unfold CategoryPreferences.claimTotal
      ring
    show (if |v| ≥ 1 / 4 then some (DomainAI.round3 v) else none) = _
    rw [hv]

/-- C4 (amended): for every user signal set (token-keyed counters with
    duplicate-free keys, any log function with `ln 6 ≥ 0`), the returned
    per-token weights are exactly the noise-floored, 3-decimal-rounded
    total of the four contributions — favorites `min(8, 3 + 2.5·ln(count+1))`
    for positive counts, history `min(5, 1.5 + 1.5·ln(count+1))` for
    positive counts, the aggregated rating sum only when it is strictly
    positive, minus the report penalty `min(9, 3 + 3·ln(count+1))` for
    positive counts — and tokens whose |total| < 0.25 are dropped.  The
    rating aggregate itself is the plain unsaturated sum of the fixed
    per-rating deltas (5→+3, 4→+1.5, 3→+0.5, 2→−1.5, else −3) of the
    records naming the token.  A user with 5 favorites in category
    "Social" and no other signals gets a strictly positive weight and the
    label "Social" for token "social". -/
theorem category_preferences_characterization (ln : ℚ → ℚ)
    (fav hist rwts pen : List (String × ℚ))
    (favL histL rateL penL : List (String × String)) (ids : List Int)
    (records : List (Option String × Option Int))
    (hfav : (fav.map Prod.fst).Nodup) (hhist : (hist.map Prod.fst).Nodup)
    (hrw : (rwts.map Prod.fst).Nodup) (hpen : (pen.map Prod.fst).Nodup)
    (hln : 0 ≤ ln 6) :
    (∀ token,
      dictGet (CategoryPreferences.get_user_category_preferences ln fav favL hist histL
        rwts rateL pen penL ids).weights token =
      (if |CategoryPreferences.claimTotal ln fav hist rwts pen token| ≥ 1 / 4
       then some (DomainAI.round3 (CategoryPreferences.claimTotal ln fav hist rwts pen token))
       else none))
    ∧ (∀ token,
      dictGet (CategoryPreferences._history_feedback_weights records) token =
        (if CategoryPreferences.ratingDeltas token records = [] then none
         else some ((CategoryPreferences.ratingDeltas token records).sum)))
    ∧ (∃ wgt,
        dictGet (CategoryPreferences.get_user_category_preferences ln
          [("social", 5)] [("social", "Social")] [] [] [] [] [] [] []).weights "social" =
            some wgt
        ∧ 0 < wgt
        ∧ dictGet (CategoryPreferences.get_user_category_preferences ln
            [("social", 5)] [("social", "Social")] [] [] [] [] [] [] []).labels "social" =
              some "Social") := by
  refine ⟨?_, ?_, ?_⟩
  · intro token
    have hnod1 := applyWeights_keys_nodup (CategoryPreferences._favorite_weight ln) fav favL
      (([], []) : List (String × ℚ) × List (String × String)) (by simp)
    have hnod2 := applyWeights_keys_nodup (CategoryPreferences._history_weight ln) hist histL
      _ hnod1
    have hnod3 := applyWeights_keys_nodup (fun value => value) rwts rateL _ hnod2
    have hnod4 := applyWeights_keys_nodup
      (fun count => -(CategoryPreferences._penalty_weight ln count)) pen penL _ hnod3
    simp only [CategoryPreferences.get_user_category_preferences]
    rw [dictGet_filter_round _ token hnod4]
    rw [applyWeights_lookup_opt _ pen penL token hpen _,
      applyWeights_lookup_opt _ rwts rateL token hrw _,
      applyWeights_lookup_opt _ hist histL token hhist _,
      applyWeights_lookup_opt _ fav favL token hfav
        (([], []) : List (String × ℚ) × List (String × String))]
    have h0 : dictGet ((([], []) : List (String × ℚ) × List (String × String))).1 token =
      none := rfl
    rw [h0]
    exact stage_tower ln fav hist rwts pen token
  · intro token
    have h := history_feedback_fold records token []
    rw [show dictGet ([] : List (String × ℚ)) token = none from rfl] at h
    simp only [Option.getD_none, zero_add] at h
    exact h
  · have hw3 : (3 : ℚ) ≤ CategoryPreferences._favorite_weight ln 5 := by
      unfold CategoryPreferences._favorite_weight
      have h6 : (5 : ℚ) + 1 = 6 := by norm_num
      rw [h6]
      refine le_min (by norm_num) ?_
      have := mul_nonneg (by norm_num : (0 : ℚ) ≤ 5 / 2) hln
      linarith
    have hwpos : (0 : ℚ) < CategoryPreferences._favorite_weight ln 5 :=
      lt_of_lt_of_le (by norm_num) hw3
    have habs : |CategoryPreferences._favorite_weight ln 5| ≥ 1 / 4 := by
      rw [abs_of_pos hwpos]
      linarith
    have hst1 : CategoryPreferences._apply_weights (CategoryPreferences._favorite_weight ln)
        ([], []) [("social", 5)] [("social", "Social")] =
        ([("social", CategoryPreferences._favorite_weight ln 5)], [("social", "Social")]) := by
      rw [applyWeights_cons]
      rw [if_neg (by norm_num : ¬ ((("social", (5 : ℚ)) : String × ℚ).2 ≤ 0))]
      rw [if_neg (show ¬ CategoryPreferences._favorite_weight ln
        ((("social", (5 : ℚ)) : String × ℚ).2) = 0 from hwpos.ne')]
      rfl
    refine ⟨DomainAI.round3 (CategoryPreferences._favorite_weight ln 5), ?_,
      round3_pos _ hw3, ?_⟩
    · simp only [CategoryPreferences.get_user_category_preferences]
      rw [hst1]
      show dictGet (([("social", CategoryPreferences._favorite_weight ln 5)].filter
          (fun p => |p.2| ≥ 1 / 4)).map (fun p => (p.1, DomainAI.round3 p.2))) "social" =
        some (DomainAI.round3 (CategoryPreferences._favorite_weight ln 5))
      rw [List.filter_cons_of_pos (by simpa using habs)]
      rfl
    · simp only [CategoryPreferences.get_user_category_preferences]
      rw [hst1]
      rfl

/-- C4 counterexample: a user whose only signal is a single 1-star rating
    on category token "social".  The claim's unsaturated rating sum is the
    fixed delta −3, whose absolute value clears the 0.25 noise floor, so
    the claim predicts `weights["social"] = −3`; but the code's weights
    dict comes back empty, because `_apply_weights` skips the aggregated
    rating sum when it is not strictly positive. -/
theorem negative_rating_sum_discarded :
    (CategoryPreferences.get_user_category_preferences (fun _ => 0) [] [] [] []
        (CategoryPreferences._history_feedback_weights [(some "social", some 1)])
        [] [] [] []).weights = []
    ∧ (CategoryPreferences.ratingDeltas "social" [(some "social", some 1)]).sum =
        CategoryPreferences._rating_weight_adjustment 1
    ∧ CategoryPreferences._rating_weight_adjustment 1 < 0
    ∧ (1 / 4 : ℚ) ≤ |CategoryPreferences._rating_weight_adjustment 1| := by
  have hadj : CategoryPreferences._rating_weight_adjustment 1 = -3 := by
    unfold CategoryPreferences._rating_weight_adjustment
    norm_num
  have hw : CategoryPreferences._history_feedback_weights [(some "social", some 1)] =
      [("social", CategoryPreferences._rating_weight_adjustment 1)] := by
    show (if CategoryPreferences._rating_weight_adjustment 1 = 0 then ([] : List (String × ℚ))
      else CategoryPreferences.assocAdd [] "social"
        (CategoryPreferences._rating_weight_adjustment 1)) = _
    rw [if_neg (rating_adjustment_ne_zero 1)]
    rfl
  refine ⟨?_, ?_, ?_, ?_⟩
  · simp only [CategoryPreferences.get_user_category_preferences]
    rw [hw, applyWeights_cons]
    rw [if_pos (show (("social", CategoryPreferences._rating_weight_adjustment 1) :
        String × ℚ).2 ≤ 0 by rw [hadj]; norm_num)]
    rfl
  · rw [ratingDeltas_cons_ss, if_pos rfl]
    show ([CategoryPreferences._rating_weight_adjustment 1] ++ []).sum = _
    rw [List.append_nil, List.sum_singleton]
  · rw [hadj]; norm_num
  · rw [hadj]
    rw [abs_of_nonpos (by norm_num : (-3 : ℚ) ≤ 0)]
    norm_num

/-- C4 witness: the amended characterization applied at the concrete log
    function `ln ≡ 0`, the "Social"-favorites instance as generic signals
    and a single 5-star record. -/
theorem category_preferences_witness :
    (∀ token,
      dictGet (CategoryPreferences.get_user_category_preferences (fun _ => 0)
        [("social", 5)] [("social", "Social")] [] [] [] [] [] [] []).weights token =
      (if |CategoryPreferences.claimTotal (fun _ => 0) [("social", 5)] [] [] [] token| ≥ 1 / 4
       then some (DomainAI.round3
         (CategoryPreferences.claimTotal (fun _ => 0) [("social", 5)] [] [] [] token))
       else none))
    ∧ (∀ token,
      dictGet (CategoryPreferences._history_feedback_weights [(some "cultura", some 5)]) token =
        (if CategoryPreferences.ratingDeltas token [(some "cultura", some 5)] = [] then none
         else some ((CategoryPreferences.ratingDeltas token [(some "cultura", some 5)]).sum)))
    ∧ (∃ wgt,
        dictGet (CategoryPreferences.get_user_category_preferences (fun _ => 0)
          [("social", 5)] [("social", "Social")] [] [] [] [] [] [] []).weights "social" =
            some wgt
        ∧ 0 < wgt
        ∧ dictGet (CategoryPreferences.get_user_category_preferences (fun _ => 0)
            [("social", 5)] [("social", "Social")] [] [] [] [] [] [] []).labels "social" =
              some "Social") :=
  category_preferences_characterization (fun _ => 0)
    [("social", 5)] [] [] [] [("social", "Social")] [] [] [] []
    [(some "cultura", some 5)]
    (by decide) (by decide) (by decide) (by decide) le_rfl

end Jubilapp
